import Mathlib

/-!
# Blindspot LLM evaluation: the two output-quality assertions

A shallow embedding of `assertions/chunk-analysis.js` and `assertions/meta-analysis.js`.

* JavaScript strings are sequences of UTF-16 code units (`JSString`).
* JavaScript numbers are `JSNumber`: NaN, the two infinities, or the exact rational value of a
  finite binary64 number.  Arithmetic that rounds (`JSON.parse` of a number literal, the score)
  goes through `roundToDouble`.
* Values are `JSValue`: what `JSON.parse` can produce, plus `undefined`.
* A function that can throw returns `Except JSError _`.

Built-ins of the language that the two modules call (`JSON.parse`, `String.prototype.trim`,
`String.prototype.split` on the one regular expression used, `Array.isArray`,
`Array.prototype.includes`, `Number.isInteger`, template-literal `ToString`, property access)
are modelled after ECMA-262.
-/

namespace Blindspot

/-! ## Strings -/

/-- A JavaScript string: its sequence of UTF-16 code units. -/
abbrev JSString := List Nat

/-- UTF-16 code units of one Unicode scalar value. -/
def utf16Char (c : Char) : JSString :=
  if c.toNat < 65536 then [c.toNat]
  else [55296 + (c.toNat - 65536) / 1024, 56320 + (c.toNat - 65536) % 1024]

/-- UTF-16 code units of a string literal. -/
def utf16 (s : String) : JSString :=
  (s.toList.map utf16Char).flatten

/-- Decimal digits of a natural number, most significant first; the first argument is fuel. -/
def digitsAux : Nat → Nat → JSString → JSString
  | 0, _, acc => acc
  | fuel + 1, n, acc =>
    if n < 10 then (48 + n) :: acc else digitsAux fuel (n / 10) ((48 + n % 10) :: acc)

/-- Decimal rendering of a natural number: what a template literal yields for an array index
or an array length (both are below 2^32, where Number::toString is the decimal expansion). -/
def natToString (n : Nat) : JSString := digitsAux (n + 1) n []

/-- WhiteSpace and LineTerminator code units, the ones `String.prototype.trim` strips. -/
def isTrimUnit (c : Nat) : Bool :=
  c = 9 || c = 10 || c = 11 || c = 12 || c = 13 || c = 32 || c = 160 || c = 5760 ||
  (8192 ≤ c && c ≤ 8202) || c = 8232 || c = 8233 || c = 8239 || c = 8287 || c = 12288 ||
  c = 65279

/-- Strip leading white space. -/
def trimStart : JSString → JSString
  | [] => []
  | c :: rest => if isTrimUnit c then trimStart rest else c :: rest

/-- The method `String.prototype.trim`. -/
def trim (s : JSString) : JSString :=
  (trimStart (trimStart s).reverse).reverse

/-- The characters of the class `[.!?]`. -/
def isSentenceEnd (c : Nat) : Bool :=
  c = 46 || c = 33 || c = 63

/-- Splitting at maximal runs of `[.!?]`: `inRun` says the previous unit was a separator, `cur`
is the current piece reversed. -/
def splitAux (inRun : Bool) (cur : JSString) : JSString → List JSString
  | [] => [cur.reverse]
  | c :: rest =>
    if isSentenceEnd c then
      if inRun then splitAux true cur rest else cur.reverse :: splitAux true [] rest
    else splitAux false (c :: cur) rest

/-- The call `s.split(/[.!?]+/)`. -/
def splitSentences (s : JSString) : List JSString :=
  splitAux false [] s

/-- The call `xs.join(sep)` on an array of strings. -/
def joinWith (sep : JSString) : List JSString → JSString
  | [] => []
  | [x] => x
  | x :: y :: rest => x ++ sep ++ joinWith sep (y :: rest)

/-! ## Numbers -/

/-- A JavaScript Number.  Negative zero is identified with zero: `typeof`, `Number.isInteger`,
`>`, truthiness and `ToString` do not tell them apart. -/
inductive JSNumber where
  | nan
  | posInf
  | negInf
  | fin (q : Rat)
  deriving DecidableEq

/-- The value 2^e as a rational, for any integer e. -/
def pow2 (e : Int) : Rat :=
  if 0 ≤ e then ((2 ^ e.toNat : Nat) : Rat) else 1 / ((2 ^ (-e).toNat : Nat) : Rat)

/-- The value 10^e as a rational, for any integer e. -/
def pow10 (e : Int) : Rat :=
  if 0 ≤ e then ((10 ^ e.toNat : Nat) : Rat) else 1 / ((10 ^ (-e).toNat : Nat) : Rat)

/-- Binary logarithm rounded down, with fuel. -/
def log2Aux : Nat → Nat → Nat
  | 0, _ => 0
  | fuel + 1, n => if n < 2 then 0 else log2Aux fuel (n / 2) + 1

/-- The natural number k with 2^k ≤ n < 2^(k+1), for positive n. -/
def log2 (n : Nat) : Nat := log2Aux n n

/-- The integer e with 2^e ≤ q < 2^(e+1), for positive q. -/
def floorLog2 (q : Rat) : Int :=
  if pow2 ((log2 q.num.natAbs : Int) - (log2 q.den : Int)) ≤ q then
    (log2 q.num.natAbs : Int) - (log2 q.den : Int)
  else (log2 q.num.natAbs : Int) - (log2 q.den : Int) - 1

/-- Round to the nearest integer, ties to the even one. -/
def roundHalfEven (m : Rat) : Int :=
  if m - m.floor < 1 / 2 then m.floor
  else if 1 / 2 < m - m.floor then m.floor + 1
  else if m.floor % 2 = 0 then m.floor else m.floor + 1

/-- Round a positive rational to binary64 (nearest, ties to even); `none` is overflow. -/
def roundPos (q : Rat) : Option Rat :=
  if (roundHalfEven (q / pow2 (max (floorLog2 q) (-1022) - 52)) : Rat)
      * pow2 (max (floorLog2 q) (-1022) - 52) < pow2 1024 then
    some ((roundHalfEven (q / pow2 (max (floorLog2 q) (-1022) - 52)) : Rat)
      * pow2 (max (floorLog2 q) (-1022) - 52))
  else none

/-- The Number value of a real number (here a rational): IEEE 754 binary64 round-to-nearest. -/
def roundToDouble (q : Rat) : JSNumber :=
  if q = 0 then .fin 0
  else if 0 < q then
    match roundPos q with
    | some r => .fin r
    | none => .posInf
  else
    match roundPos (-q) with
    | some r => .fin (-r)
    | none => .negInf

/-- The integer n with 10^(n-1) ≤ q < 10^n, for positive q. -/
def decExponent (q : Rat) : Int :=
  if q < pow10 (((natToString q.num.natAbs).length : Int) - ((natToString q.den).length : Int))
  then ((natToString q.num.natAbs).length : Int) - ((natToString q.den).length : Int)
  else ((natToString q.num.natAbs).length : Int) - ((natToString q.den).length : Int) + 1

/-- Normalise a digit string that was rounded up to a power of ten. -/
def fixDigits (k : Nat) (n : Int) (s : Nat) : Nat × Int :=
  if s = 10 ^ k then (10 ^ (k - 1), n + 1) else (s, n)

/-- The k-digit integer s and exponent n with `roundToDouble (s * 10^(n-k)) = q` that is
closest to q (ties to even s), if there is one. -/
def shortestAt (q : Rat) (k : Nat) : Option (Nat × Int) :=
  let n := decExponent q
  let scaled := q / pow10 (n - k)
  let lo := scaled.floor.toNat
  let hi := lo + 1
  let okLo := decide (roundToDouble ((lo : Rat) * pow10 (n - k)) = .fin q)
  let okHi := decide (roundToDouble ((hi : Rat) * pow10 (n - k)) = .fin q)
  if okLo && okHi then
    if scaled - lo < (hi : Rat) - scaled then some (fixDigits k n lo)
    else if (hi : Rat) - scaled < scaled - lo then some (fixDigits k n hi)
    else if lo % 2 = 0 then some (fixDigits k n lo) else some (fixDigits k n hi)
  else if okLo then some (fixDigits k n lo)
  else if okHi then some (fixDigits k n hi)
  else none

/-- Search k, k+1, ... for the shortest digit string that reads back as q: the triple
(k, s, n) of Number::toString.  Seventeen digits always suffice for a binary64 value; the
fallback after the fuel is spent is not reached for one. -/
def shortestFrom (q : Rat) : Nat → Nat → Nat × Nat × Int
  | 0, k => (k, (q / pow10 (decExponent q - k)).floor.toNat, decExponent q)
  | fuel + 1, k =>
    match shortestAt q k with
    | some (s, n) => (k, s, n)
    | none => shortestFrom q fuel (k + 1)

/-- A run of n digits zero. -/
def zeros (n : Nat) : JSString := List.replicate n 48

/-- Layout of the digits s (k of them) with decimal exponent n, per Number::toString. -/
def layoutDigits (k s : Nat) (n : Int) : JSString :=
  if (k : Int) ≤ n ∧ n ≤ 21 then natToString s ++ zeros (n - k).toNat
  else if 0 < n ∧ n ≤ 21 then
    (natToString s).take n.toNat ++ utf16 "." ++ (natToString s).drop n.toNat
  else if -6 < n ∧ n ≤ 0 then utf16 "0." ++ zeros (-n).toNat ++ natToString s
  else if k = 1 then
    natToString s ++ utf16 "e" ++ (if 0 ≤ n - 1 then utf16 "+" else utf16 "-")
      ++ natToString (n - 1).natAbs
  else
    (natToString s).take 1 ++ utf16 "." ++ (natToString s).drop 1 ++ utf16 "e"
      ++ (if 0 ≤ n - 1 then utf16 "+" else utf16 "-") ++ natToString (n - 1).natAbs

/-- Number::toString for a positive finite value, radix 10. -/
def posToString (q : Rat) : JSString :=
  layoutDigits (shortestFrom q 17 1).1 (shortestFrom q 17 1).2.1 (shortestFrom q 17 1).2.2

/-- Number::toString, radix 10. -/
def numberToString : JSNumber → JSString
  | .nan => utf16 "NaN"
  | .posInf => utf16 "Infinity"
  | .negInf => utf16 "-Infinity"
  | .fin q =>
    if q = 0 then utf16 "0"
    else if q < 0 then utf16 "-" ++ posToString (-q)
    else posToString q

/-- The test `Number.isInteger` on a Number. -/
def JSNumber.isInteger : JSNumber → Bool
  | .fin q => q.den = 1
  | _ => false

/-- The comparison `a > b` on Numbers. -/
def JSNumber.gt : JSNumber → JSNumber → Bool
  | .nan, _ => false
  | _, .nan => false
  | .posInf, .posInf => false
  | .posInf, _ => true
  | _, .posInf => false
  | .negInf, _ => false
  | _, .negInf => true
  | .fin a, .fin b => b < a

/-- A finite Number between 0 and 1 inclusive. -/
def JSNumber.inUnitInterval : JSNumber → Bool
  | .fin q => decide (0 ≤ q) && decide (q ≤ 1)
  | _ => false

/-! ## Values -/

/-- A JavaScript value as the validators can meet it: the values `JSON.parse` produces
(objects are lists of own properties), plus `undefined`. -/
inductive JSValue where
  | undefined
  | null
  | bool (b : Bool)
  | num (x : JSNumber)
  | str (s : JSString)
  | arr (items : List JSValue)
  | obj (props : List (JSString × JSValue))

/-- The exceptions a validator can throw after decoding: all are TypeErrors. -/
inductive JSError where
  | typeError
  deriving DecidableEq

/-- Own-property lookup in a property list. -/
def lookupProp (name : JSString) : List (JSString × JSValue) → Option JSValue
  | [] => none
  | (k, v) :: rest => if k = name then some v else lookupProp name rest

/-- Property read `v.name`, for the names the two modules read (none of them is an array index,
`length`, or a member of a built-in prototype): a TypeError on `undefined` and `null`, the own
property of an object, `undefined` otherwise. -/
def getProp (v : JSValue) (name : JSString) : Except JSError JSValue :=
  match v with
  | .undefined => .error .typeError
  | .null => .error .typeError
  | .obj props => .ok ((lookupProp name props).getD .undefined)
  | _ => .ok .undefined

/-- The values a property read throws on: `undefined` and `null`. -/
def JSValue.isNullish : JSValue → Bool
  | .undefined => true
  | .null => true
  | _ => false

/-- The value of the property `name` of v when reading it does not throw: the own property of
an object, `undefined` when there is none or v is not an object. -/
def field (v : JSValue) (name : JSString) : JSValue :=
  match v with
  | .obj props => (lookupProp name props).getD .undefined
  | _ => .undefined

/-- The test `typeof v === 'string'`. -/
def JSValue.isString : JSValue → Bool
  | .str _ => true
  | _ => false

/-- The test `typeof v === 'number'`. -/
def JSValue.isNumber : JSValue → Bool
  | .num _ => true
  | _ => false

/-- The test `Array.isArray(v)`. -/
def JSValue.isArray : JSValue → Bool
  | .arr _ => true
  | _ => false

/-- The abstract operation ToBoolean. -/
def JSValue.truthy : JSValue → Bool
  | .undefined => false
  | .null => false
  | .bool b => b
  | .num .nan => false
  | .num (.fin q) => q ≠ 0
  | .num _ => true
  | .str s => s ≠ []
  | .arr _ => true
  | .obj _ => true

/-- The test `Number.isInteger(v)`. -/
def JSValue.isInteger : JSValue → Bool
  | .num x => x.isInteger
  | _ => false

/-- The value of `v.trim().length`, for a string v (0 for anything else; the modules only call
it on strings). -/
def JSValue.trimLength : JSValue → Nat
  | .str s => (trim s).length
  | _ => 0

/-- The test `list.includes(v)` for a list of string literals (SameValueZero: only an equal
string is included). -/
def includesValue (list : List JSString) : JSValue → Bool
  | .str s => list.contains s
  | _ => false

mutual
/-- The abstract operation ToString, as a template literal applies it.  An object decoded from
JSON has no callable own property, so OrdinaryToPrimitive reaches `Object.prototype.toString`
unless the object has an own property `toString`, in which case neither `toString` nor
`valueOf` yields a primitive and a TypeError is thrown. -/
def toStringJS : JSValue → Except JSError JSString
  | .undefined => .ok (utf16 "undefined")
  | .null => .ok (utf16 "null")
  | .bool true => .ok (utf16 "true")
  | .bool false => .ok (utf16 "false")
  | .num x => .ok (numberToString x)
  | .str s => .ok s
  | .arr items => joinItems items
  | .obj props =>
    if (lookupProp (utf16 "toString") props).isSome then .error .typeError
    else .ok (utf16 "[object Object]")
/-- The method `Array.prototype.join` with the separator `,`: `undefined` and `null` elements
render as the empty string. -/
def joinItems : List JSValue → Except JSError JSString
  | [] => .ok []
  | x :: rest => do
    let a ← (match x with
      | .undefined => .ok []
      | .null => .ok []
      | y => toStringJS y)
    match rest with
    | [] => pure a
    | _ :: _ => do
      let b ← joinItems rest
      pure (a ++ utf16 "," ++ b)
end

/-! ## JSON.parse -/

/-- JSON white space. -/
def isJsonWs (c : Nat) : Bool :=
  c = 32 || c = 9 || c = 10 || c = 13

/-- Skip JSON white space. -/
def skipWs : JSString → JSString
  | [] => []
  | c :: rest => if isJsonWs c then skipWs rest else c :: rest

/-- Value of a hexadecimal digit. -/
def hexVal (c : Nat) : Option Nat :=
  if 48 ≤ c ∧ c ≤ 57 then some (c - 48)
  else if 65 ≤ c ∧ c ≤ 70 then some (c - 55)
  else if 97 ≤ c ∧ c ≤ 102 then some (c - 87)
  else none

/-- The code unit of a `\uXXXX` escape. -/
def hex4 (a b c d : Nat) : Option Nat := do
  let x ← hexVal a
  let y ← hexVal b
  let z ← hexVal c
  let w ← hexVal d
  pure (((x * 16 + y) * 16 + z) * 16 + w)

/-- The code unit a single-character escape stands for. -/
def escapeUnit (c : Nat) : Option Nat :=
  if c = 34 then some 34
  else if c = 92 then some 92
  else if c = 47 then some 47
  else if c = 98 then some 8
  else if c = 102 then some 12
  else if c = 110 then some 10
  else if c = 114 then some 13
  else if c = 116 then some 9
  else none

/-- A JSON string after its opening quote: the decoded string and the rest of the input.  The
first argument is fuel, `acc` the decoded units reversed. -/
def parseStringBody : Nat → JSString → JSString → Option (JSString × JSString)
  | 0, _, _ => none
  | _ + 1, _, [] => none
  | fuel + 1, acc, c :: rest =>
    if c = 34 then some (acc.reverse, rest)
    else if c = 92 then
      match rest with
      | [] => none
      | e :: rest1 =>
        if e = 117 then
          match rest1 with
          | a :: b :: c1 :: d :: rest2 =>
            match hex4 a b c1 d with
            | some u => parseStringBody fuel (u :: acc) rest2
            | none => none
          | _ => none
        else
          match escapeUnit e with
          | some u => parseStringBody fuel (u :: acc) rest1
          | none => none
    else if c < 32 then none
    else parseStringBody fuel (c :: acc) rest

/-- The test for a decimal digit. -/
def isDigit (c : Nat) : Bool := 48 ≤ c && c ≤ 57

/-- Leading decimal digits (as values 0..9) and the rest. -/
def takeDigits : JSString → List Nat × JSString
  | [] => ([], [])
  | c :: rest =>
    if isDigit c then ((c - 48) :: (takeDigits rest).1, (takeDigits rest).2) else ([], c :: rest)

/-- The natural number with the given decimal digits. -/
def digitsValue (ds : List Nat) : Nat :=
  ds.foldl (fun acc d => acc * 10 + d) 0

/-- The integer part of a JSON number: `0`, or a digit 1..9 followed by digits. -/
def parseIntPart : JSString → Option (List Nat × JSString)
  | [] => none
  | c :: rest =>
    if c = 48 then some ([0], rest)
    else if isDigit c then some (takeDigits (c :: rest))
    else none

/-- The optional fraction of a JSON number: `.` followed by at least one digit. -/
def parseFracPart : JSString → Option (List Nat × JSString)
  | 46 :: rest =>
    if (takeDigits rest).1 = [] then none else some (takeDigits rest)
  | other => some ([], other)

/-- Digits of an exponent, at least one. -/
def parseExpDigits (negative : Bool) (input : JSString) : Option (Int × JSString) :=
  if (takeDigits input).1 = [] then none
  else if negative then some (-(digitsValue (takeDigits input).1 : Int), (takeDigits input).2)
  else some ((digitsValue (takeDigits input).1 : Int), (takeDigits input).2)

/-- The optional exponent of a JSON number: `e` or `E`, an optional sign, digits. -/
def parseExpPart : JSString → Option (Int × JSString)
  | [] => some (0, [])
  | c :: rest =>
    if c = 101 ∨ c = 69 then
      match rest with
      | [] => none
      | s :: rest1 =>
        if s = 43 then parseExpDigits false rest1
        else if s = 45 then parseExpDigits true rest1
        else parseExpDigits false (s :: rest1)
    else some (0, c :: rest)

/-- A JSON number without its sign: the binary64 value of the decimal literal. -/
def parseUnsigned (negative : Bool) (input : JSString) : Option (JSNumber × JSString) := do
  let (ip, rest1) ← parseIntPart input
  let (fp, rest2) ← parseFracPart rest1
  let (ex, rest3) ← parseExpPart rest2
  let q : Rat := (digitsValue (ip ++ fp) : Rat) * pow10 (ex - fp.length)
  pure (roundToDouble (if negative then -q else q), rest3)

/-- A JSON number. -/
def parseNumber : JSString → Option (JSNumber × JSString)
  | 45 :: rest => parseUnsigned true rest
  | input => parseUnsigned false input

/-- Define or overwrite an own property (a repeated key keeps its place and takes the later
value). -/
def setProp (name : JSString) (v : JSValue) :
    List (JSString × JSValue) → List (JSString × JSValue)
  | [] => [(name, v)]
  | (k, w) :: rest => if k = name then (k, v) :: rest else (k, w) :: setProp name v rest

/-- Strip a literal keyword from the front of the input. -/
def stripKeyword : JSString → JSString → Option JSString
  | [], input => some input
  | _ :: _, [] => none
  | k :: ks, c :: rest => if k = c then stripKeyword ks rest else none

mutual
/-- A JSON value with leading white space skipped; the first argument is fuel. -/
def parseValue : Nat → JSString → Option (JSValue × JSString)
  | 0, _ => none
  | fuel + 1, input =>
    match skipWs input with
    | [] => none
    | c :: rest =>
      if c = 110 then (stripKeyword (utf16 "ull") rest).map fun r => (JSValue.null, r)
      else if c = 116 then (stripKeyword (utf16 "rue") rest).map fun r => (JSValue.bool true, r)
      else if c = 102 then
        (stripKeyword (utf16 "alse") rest).map fun r => (JSValue.bool false, r)
      else if c = 34 then
        (parseStringBody (rest.length + 1) [] rest).map fun sr => (JSValue.str sr.1, sr.2)
      else if c = 91 then
        match skipWs rest with
        | 93 :: rest1 => some (JSValue.arr [], rest1)
        | _ => (parseElements fuel [] rest).map fun er => (JSValue.arr er.1, er.2)
      else if c = 123 then
        match skipWs rest with
        | 125 :: rest1 => some (JSValue.obj [], rest1)
        | _ => (parseMembers fuel [] rest).map fun mr => (JSValue.obj mr.1, mr.2)
      else (parseNumber (c :: rest)).map fun nr => (JSValue.num nr.1, nr.2)
/-- The elements of a non-empty JSON array up to and including the closing bracket. -/
def parseElements : Nat → List JSValue → JSString → Option (List JSValue × JSString)
  | 0, _, _ => none
  | fuel + 1, acc, input =>
    match parseValue fuel input with
    | none => none
    | some (v, rest) =>
      match skipWs rest with
      | 44 :: rest1 => parseElements fuel (acc ++ [v]) rest1
      | 93 :: rest1 => some (acc ++ [v], rest1)
      | _ => none
/-- The members of a non-empty JSON object up to and including the closing brace. -/
def parseMembers : Nat → List (JSString × JSValue) → JSString →
    Option (List (JSString × JSValue) × JSString)
  | 0, _, _ => none
  | fuel + 1, acc, input =>
    match skipWs input with
    | 34 :: rest =>
      match parseStringBody (rest.length + 1) [] rest with
      | none => none
      | some (key, rest1) =>
        match skipWs rest1 with
        | 58 :: rest2 =>
          match parseValue fuel rest2 with
          | none => none
          | some (v, rest3) =>
            match skipWs rest3 with
            | 44 :: rest4 => parseMembers fuel (setProp key v acc) rest4
            | 125 :: rest4 => some (setProp key v acc, rest4)
            | _ => none
        | _ => none
    | _ => none
end

/-- The call `JSON.parse(text)`: `none` stands for the SyntaxError it throws. -/
def jsonParse (text : JSString) : Option JSValue :=
  match parseValue (2 * text.length + 2) text with
  | none => none
  | some (v, rest) => if skipWs rest = [] then some v else none

/-! ## Number arithmetic of the score -/

/-- The operator `a / b` on Numbers. -/
def jsDiv : JSNumber → JSNumber → JSNumber
  | .nan, _ => .nan
  | _, .nan => .nan
  | .fin a, .fin b =>
    if b = 0 then (if a = 0 then .nan else if 0 < a then .posInf else .negInf)
    else roundToDouble (a / b)
  | .fin _, _ => .fin 0
  | .posInf, .fin b => if 0 ≤ b then .posInf else .negInf
  | .negInf, .fin b => if 0 ≤ b then .negInf else .posInf
  | _, _ => .nan

/-- The operator `a - b` on Numbers. -/
def jsSub : JSNumber → JSNumber → JSNumber
  | .nan, _ => .nan
  | _, .nan => .nan
  | .fin a, .fin b => roundToDouble (a - b)
  | .fin _, .posInf => .negInf
  | .fin _, .negInf => .posInf
  | .posInf, .posInf => .nan
  | .posInf, _ => .posInf
  | .negInf, .negInf => .nan
  | .negInf, _ => .negInf

/-- The call `Math.max(a, b)`. -/
def jsMax : JSNumber → JSNumber → JSNumber
  | .nan, _ => .nan
  | _, .nan => .nan
  | .posInf, _ => .posInf
  | _, .posInf => .posInf
  | .negInf, b => b
  | a, .negInf => a
  | .fin a, .fin b => .fin (max a b)

/-- The expression `Math.max(0, 1 - failedChecks / totalChecks)`. -/
def scoreOf (totalChecks failedChecks : Nat) : JSNumber :=
  jsMax (.fin 0) (jsSub (.fin 1) (jsDiv (.fin failedChecks) (.fin totalChecks)))

/-! ## Reports -/

/-- The object `{ pass, score, reason }` a validator returns. -/
structure Report where
  pass : Bool
  score : JSNumber
  reason : JSString
  deriving DecidableEq

/-- The statement `results.push(msg)`. -/
def push (results : List JSString) (msg : JSString) : List JSString :=
  results ++ [msg]

/-- The Report of the `catch` branch. -/
def notJsonReport : Report :=
  { pass := false, score := .fin 0, reason := utf16 "Output is not valid JSON" }

/-- The statement `parsed = typeof output === 'string' ? JSON.parse(output) : output` inside
`try`: `none` when `JSON.parse` throws. -/
def decodeOutput : JSValue → Option JSValue
  | .str text => jsonParse text
  | output => some output

/-- The filter predicate `typeof p === 'string' && p.trim().length > 0`. -/
def isNonBlankString (p : JSValue) : Bool :=
  p.isString && decide (p.trimLength > 0)

/-- The condition `!v || typeof v !== 'string' || v.trim().length === 0`. -/
def isBlankOrMissing (v : JSValue) : Bool :=
  !v.truthy || !v.isString || decide (v.trimLength = 0)

/-- The comparison `a > b`, evaluated by the modules on two Numbers only. -/
def jsGreater : JSValue → JSValue → Bool
  | .num a, .num b => a.gt b
  | _, _ => false

/-! ## assertions/chunk-analysis.js -/

/-- The keyPoints block (lines 19-30). -/
def chunkKeyPoints (parsed : JSValue) (results : List JSString) :
    Except JSError (List JSString) := do
  let keyPoints ← getProp parsed (utf16 "keyPoints")
  match keyPoints with
  | .arr items =>
    let valid := items.filter isNonBlankString
    let results :=
      if valid.length < 1 then
        push results (utf16 "keyPoints has " ++ natToString valid.length
          ++ utf16 " non-empty items (expected at least 1)")
      else results
    let results :=
      if valid.length > 8 then
        push results (utf16 "keyPoints has " ++ natToString valid.length
          ++ utf16 " items (expected at most 8)")
      else results
    pure results
  | _ => pure (push results (utf16 "keyPoints is not an array"))

/-- The startIndex statement of the quotes loop (lines 41-43). -/
def quoteStartIndex (i : Nat) (q : JSValue) (results : List JSString) :
    Except JSError (List JSString) := do
  let startIndex ← getProp q (utf16 "startIndex")
  if !startIndex.isNumber || !startIndex.isInteger then
    pure (push results
      (utf16 "quotes[" ++ natToString i ++ utf16 "].startIndex is not an integer"))
  else pure results

/-- The endIndex statement of the quotes loop (lines 44-46). -/
def quoteEndIndex (i : Nat) (q : JSValue) (results : List JSString) :
    Except JSError (List JSString) := do
  let endIndex ← getProp q (utf16 "endIndex")
  if !endIndex.isNumber || !endIndex.isInteger then
    pure (push results (utf16 "quotes[" ++ natToString i ++ utf16 "].endIndex is not an integer"))
  else pure results

/-- The startIndex > endIndex statement of the quotes loop (lines 47-49). -/
def quoteOrder (i : Nat) (q : JSValue) (results : List JSString) :
    Except JSError (List JSString) := do
  let startIndex ← getProp q (utf16 "startIndex")
  let endIndex ← getProp q (utf16 "endIndex")
  if startIndex.isNumber && endIndex.isNumber && jsGreater startIndex endIndex then do
    let shownStart ← toStringJS startIndex
    let shownEnd ← toStringJS endIndex
    pure (push results (utf16 "quotes[" ++ natToString i ++ utf16 "].startIndex ("
      ++ shownStart ++ utf16 ") > endIndex (" ++ shownEnd ++ utf16 ")"))
  else pure results

/-- The context statement of the quotes loop (lines 50-52). -/
def quoteContext (i : Nat) (q : JSValue) (results : List JSString) :
    Except JSError (List JSString) := do
  let context ← getProp q (utf16 "context")
  if isBlankOrMissing context then
    pure (push results (utf16 "quotes[" ++ natToString i ++ utf16 "].context is empty or missing"))
  else pure results

/-- The significance statement of the quotes loop (lines 53-55). -/
def quoteSignificance (i : Nat) (q : JSValue) (results : List JSString) :
    Except JSError (List JSString) := do
  let significance ← getProp q (utf16 "significance")
  if !includesValue [utf16 "high", utf16 "medium", utf16 "low"] significance then do
    let shown ← toStringJS significance
    pure (push results (utf16 "quotes[" ++ natToString i ++ utf16 "].significance is invalid: "
      ++ shown))
  else pure results

/-- The body of the quotes loop for `q = parsed.quotes[i]` (lines 40-55). -/
def chunkQuote (i : Nat) (q : JSValue) (results : List JSString) :
    Except JSError (List JSString) := do
  let results ← quoteStartIndex i q results
  let results ← quoteEndIndex i q results
  let results ← quoteOrder i q results
  let results ← quoteContext i q results
  quoteSignificance i q results

/-- The quotes loop from index i on (lines 39-56). -/
def chunkQuotesLoop (i : Nat) : List JSValue → List JSString → Except JSError (List JSString)
  | [], results => pure results
  | q :: rest, results => do
    let results ← chunkQuote i q results
    chunkQuotesLoop (i + 1) rest results

/-- The size statement of the quotes block (lines 36-38). -/
def quotesCount (items : List JSValue) (results : List JSString) :
    Except JSError (List JSString) :=
  if items.length > 5 then
    pure (push results (utf16 "quotes has " ++ natToString items.length
      ++ utf16 " items (expected at most 5)"))
  else pure results

/-- The quotes block (lines 32-57). -/
def chunkQuotes (parsed : JSValue) (results : List JSString) :
    Except JSError (List JSString) := do
  let quotes ← getProp parsed (utf16 "quotes")
  match quotes with
  | .arr items => do
    let results ← quotesCount items results
    chunkQuotesLoop 0 items results
  | _ => pure (push results (utf16 "quotes is not an array"))

/-- The topic statement of the stanceSignals loop (lines 65-67). -/
def stanceTopic (i : Nat) (s : JSValue) (results : List JSString) :
    Except JSError (List JSString) := do
  let topic ← getProp s (utf16 "topic")
  if isBlankOrMissing topic then
    pure (push results
      (utf16 "stanceSignals[" ++ natToString i ++ utf16 "].topic is empty or missing"))
  else pure results

/-- The position statement of the stanceSignals loop (lines 68-70). -/
def stancePosition (i : Nat) (s : JSValue) (results : List JSString) :
    Except JSError (List JSString) := do
  let position ← getProp s (utf16 "position")
  if isBlankOrMissing position then
    pure (push results
      (utf16 "stanceSignals[" ++ natToString i ++ utf16 "].position is empty or missing"))
  else pure results

/-- The strength statement of the stanceSignals loop (lines 71-73). -/
def stanceStrength (i : Nat) (s : JSValue) (results : List JSString) :
    Except JSError (List JSString) := do
  let strength ← getProp s (utf16 "strength")
  if !includesValue [utf16 "strong", utf16 "moderate", utf16 "weak"] strength then do
    let shown ← toStringJS strength
    pure (push results (utf16 "stanceSignals[" ++ natToString i ++ utf16 "].strength is invalid: "
      ++ shown))
  else pure results

/-- The body of the stanceSignals loop for `s = parsed.stanceSignals[i]` (lines 64-73). -/
def chunkStance (i : Nat) (s : JSValue) (results : List JSString) :
    Except JSError (List JSString) := do
  let results ← stanceTopic i s results
  let results ← stancePosition i s results
  stanceStrength i s results

/-- The stanceSignals loop from index i on (lines 63-74). -/
def chunkStanceLoop (i : Nat) : List JSValue → List JSString → Except JSError (List JSString)
  | [], results => pure results
  | s :: rest, results => do
    let results ← chunkStance i s results
    chunkStanceLoop (i + 1) rest results

/-- The stanceSignals block (lines 59-75). -/
def chunkStanceSignals (parsed : JSValue) (results : List JSString) :
    Except JSError (List JSString) := do
  let stanceSignals ← getProp parsed (utf16 "stanceSignals")
  match stanceSignals with
  | .arr items => chunkStanceLoop 0 items results
  | _ => pure (push results (utf16 "stanceSignals is not an array"))

/-- The filter predicate `typeof t !== 'string' || t.trim().length === 0`. -/
def isInvalidTopic (t : JSValue) : Bool :=
  !t.isString || decide (t.trimLength = 0)

/-- The topics block (lines 77-87). -/
def chunkTopics (parsed : JSValue) (results : List JSString) :
    Except JSError (List JSString) := do
  let topics ← getProp parsed (utf16 "topics")
  match topics with
  | .arr items =>
    if items.length = 0 then pure (push results (utf16 "topics array is empty"))
    else
      let invalid := items.filter isInvalidTopic
      if invalid.length > 0 then
        pure (push results (utf16 "topics has " ++ natToString invalid.length
          ++ utf16 " empty/non-string items"))
      else pure results
  | _ => pure (push results (utf16 "topics is not an array"))

/-- The tone block (lines 89-92). -/
def chunkTone (parsed : JSValue) (results : List JSString) :
    Except JSError (List JSString) := do
  let tone ← getProp parsed (utf16 "tone")
  if isBlankOrMissing tone then pure (push results (utf16 "tone is empty or missing"))
  else pure results

/-- The field checks of chunk-analysis (lines 19-92): the final value of `results`, which
starts empty. -/
def chunkChecks (parsed : JSValue) : Except JSError (List JSString) := do
  let results ← chunkKeyPoints parsed []
  let results ← chunkQuotes parsed results
  let results ← chunkStanceSignals parsed results
  let results ← chunkTopics parsed results
  chunkTone parsed results

/-- The score and the returned object of chunk-analysis (lines 94-105). -/
def chunkReport (results : List JSString) : Report :=
  { pass := results.length == 0
    score := scoreOf 5 results.length
    reason :=
      if results.length == 0 then utf16 "All chunk analysis quality checks passed"
      else utf16 "Failed checks: " ++ joinWith (utf16 "; ") results }

/-- The function exported by chunk-analysis.js, together with the value `results` has when it
returns.  The second parameter `context` of the source is never read. -/
def chunkRun (output : JSValue) : Except JSError (List JSString × Report) :=
  match decodeOutput output with
  | none => .ok ([], notJsonReport)
  | some parsed => do
    let results ← chunkChecks parsed
    pure (results, chunkReport results)

/-- The function exported by chunk-analysis.js. -/
def chunkAnalysis (output : JSValue) : Except JSError Report :=
  (chunkRun output).map Prod.snd

/-! ## assertions/meta-analysis.js -/

/-- The constant `VALID_STANCES`. -/
def VALID_STANCES : List JSString :=
  [utf16 "Far Left", utf16 "Left-leaning", utf16 "Centrist", utf16 "Right-leaning",
    utf16 "Far Right"]

/-- The constant `VALID_CONFIDENCE`. -/
def VALID_CONFIDENCE : List JSString :=
  [utf16 "high", utf16 "medium", utf16 "low"]

/-- The politicalStance block (lines 22-25). -/
def metaPoliticalStance (parsed : JSValue) (results : List JSString) :
    Except JSError (List JSString) := do
  let politicalStance ← getProp parsed (utf16 "politicalStance")
  if !includesValue VALID_STANCES politicalStance then do
    let shown ← toStringJS politicalStance
    pure (push results (utf16 "politicalStance \"" ++ shown
      ++ utf16 "\" is not a valid enum value"))
  else pure results

/-- The value of `v.split(/[.!?]+/).filter(s => s.trim().length > 10)`, for a string v (empty
for anything else; the module only calls it on a string). -/
def JSValue.longSentences : JSValue → List JSString
  | .str s => (splitSentences s).filter fun piece => decide ((trim piece).length > 10)
  | _ => []

/-- The paragraphSummary block (lines 27-38). -/
def metaParagraphSummary (parsed : JSValue) (results : List JSString) :
    Except JSError (List JSString) := do
  let paragraphSummary ← getProp parsed (utf16 "paragraphSummary")
  if !paragraphSummary.truthy || !paragraphSummary.isString then
    pure (push results (utf16 "paragraphSummary is missing or not a string"))
  else
    let sentences := paragraphSummary.longSentences
    let results :=
      if sentences.length < 1 then
        push results (utf16 "paragraphSummary has " ++ natToString sentences.length
          ++ utf16 " sentences (expected at least 1)")
      else results
    let results :=
      if paragraphSummary.trimLength < 50 then
        push results (utf16 "paragraphSummary is too short (less than 50 chars)")
      else results
    pure results

/-- The summary block (lines 40-45). -/
def metaSummary (parsed : JSValue) (results : List JSString) :
    Except JSError (List JSString) := do
  let summary ← getProp parsed (utf16 "summary")
  if !summary.truthy || !summary.isString then
    pure (push results (utf16 "summary is missing or not a string"))
  else if summary.trimLength < 20 then
    pure (push results (utf16 "summary is too short (less than 20 chars)"))
  else pure results

/-- The bulletPointsSummary block (lines 47-58). -/
def metaBulletPoints (parsed : JSValue) (results : List JSString) :
    Except JSError (List JSString) := do
  let bulletPointsSummary ← getProp parsed (utf16 "bulletPointsSummary")
  match bulletPointsSummary with
  | .arr items =>
    let valid := items.filter isNonBlankString
    let results :=
      if valid.length < 3 then
        push results (utf16 "bulletPointsSummary has " ++ natToString valid.length
          ++ utf16 " items (expected at least 3)")
      else results
    let results :=
      if valid.length > 7 then
        push results (utf16 "bulletPointsSummary has " ++ natToString valid.length
          ++ utf16 " items (expected at most 7)")
      else results
    pure results
  | _ => pure (push results (utf16 "bulletPointsSummary is not an array"))

/-- The analysisConfidence block (lines 60-63). -/
def metaConfidence (parsed : JSValue) (results : List JSString) :
    Except JSError (List JSString) := do
  let analysisConfidence ← getProp parsed (utf16 "analysisConfidence")
  if !includesValue VALID_CONFIDENCE analysisConfidence then do
    let shown ← toStringJS analysisConfidence
    pure (push results (utf16 "analysisConfidence \"" ++ shown ++ utf16 "\" is not valid"))
  else pure results

/-- The stanceExplanation block (lines 65-70). -/
def metaStanceExplanation (parsed : JSValue) (results : List JSString) :
    Except JSError (List JSString) := do
  let stanceExplanation ← getProp parsed (utf16 "stanceExplanation")
  if !stanceExplanation.truthy || !stanceExplanation.isString then
    pure (push results (utf16 "stanceExplanation is missing or not a string"))
  else if stanceExplanation.trimLength < 30 then
    pure (push results (utf16 "stanceExplanation is too short (less than 30 chars)"))
  else pure results

/-- The text statement of the topQuotes loop (lines 78-80). -/
def topQuoteText (i : Nat) (q : JSValue) (results : List JSString) :
    Except JSError (List JSString) := do
  let text ← getProp q (utf16 "text")
  if !text.truthy || !text.isString || decide (text.trimLength < 5) then
    pure (push results (utf16 "topQuotes[" ++ natToString i ++ utf16 "].text is empty or too short"))
  else pure results

/-- The context statement of the topQuotes loop (lines 81-83). -/
def topQuoteContext (i : Nat) (q : JSValue) (results : List JSString) :
    Except JSError (List JSString) := do
  let context ← getProp q (utf16 "context")
  if isBlankOrMissing context then
    pure (push results
      (utf16 "topQuotes[" ++ natToString i ++ utf16 "].context is empty or missing"))
  else pure results

/-- The body of the topQuotes loop for `q = parsed.topQuotes[i]` (lines 77-83). -/
def metaTopQuote (i : Nat) (q : JSValue) (results : List JSString) :
    Except JSError (List JSString) := do
  let results ← topQuoteText i q results
  topQuoteContext i q results

/-- The topQuotes loop from index i on (lines 76-84). -/
def metaTopQuotesLoop (i : Nat) : List JSValue → List JSString → Except JSError (List JSString)
  | [], results => pure results
  | q :: rest, results => do
    let results ← metaTopQuote i q results
    metaTopQuotesLoop (i + 1) rest results

/-- The topQuotes block (lines 72-85). -/
def metaTopQuotes (parsed : JSValue) (results : List JSString) :
    Except JSError (List JSString) := do
  let topQuotes ← getProp parsed (utf16 "topQuotes")
  match topQuotes with
  | .arr items => metaTopQuotesLoop 0 items results
  | _ => pure (push results (utf16 "topQuotes is not an array"))

/-- The topics block (lines 87-98). -/
def metaTopics (parsed : JSValue) (results : List JSString) :
    Except JSError (List JSString) := do
  let topics ← getProp parsed (utf16 "topics")
  match topics with
  | .arr items =>
    let valid := items.filter isNonBlankString
    let results :=
      if valid.length < 2 then
        push results (utf16 "topics has " ++ natToString valid.length
          ++ utf16 " items (expected at least 2)")
      else results
    let results :=
      if valid.length > 7 then
        push results (utf16 "topics has " ++ natToString valid.length
          ++ utf16 " items (expected at most 7)")
      else results
    pure results
  | _ => pure (push results (utf16 "topics is not an array"))

/-- The field checks of meta-analysis (lines 22-98): the final value of `results`, which starts
empty. -/
def metaChecks (parsed : JSValue) : Except JSError (List JSString) := do
  let results ← metaPoliticalStance parsed []
  let results ← metaParagraphSummary parsed results
  let results ← metaSummary parsed results
  let results ← metaBulletPoints parsed results
  let results ← metaConfidence parsed results
  let results ← metaStanceExplanation parsed results
  let results ← metaTopQuotes parsed results
  metaTopics parsed results

/-- The score and the returned object of meta-analysis (lines 100-111). -/
def metaReport (results : List JSString) : Report :=
  { pass := results.length == 0
    score := scoreOf 8 results.length
    reason :=
      if results.length == 0 then utf16 "All meta-analysis quality checks passed"
      else utf16 "Failed checks: " ++ joinWith (utf16 "; ") results }

/-- The function exported by meta-analysis.js, together with the value `results` has when it
returns.  The second parameter `context` of the source is never read. -/
def metaRun (output : JSValue) : Except JSError (List JSString × Report) :=
  match decodeOutput output with
  | none => .ok ([], notJsonReport)
  | some parsed => do
    let results ← metaChecks parsed
    pure (results, metaReport results)

/-- The function exported by meta-analysis.js. -/
def metaAnalysis (output : JSValue) : Except JSError Report :=
  (metaRun output).map Prod.snd

/-! ## The profiles in the words of the specification -/

/-- A string that is non-empty after trimming. -/
def nonBlank : JSValue → Bool
  | .str s => decide (trim s ≠ [])
  | _ => false

/-- A string whose trimmed length is at least n. -/
def minTrimmed (n : Nat) : JSValue → Bool
  | .str s => decide (n ≤ (trim s).length)
  | _ => false

/-- A quote as the chunk profile wants it: integer startIndex and endIndex with
startIndex ≤ endIndex, a non-blank context, a significance among high, medium, low. -/
def ValidQuote (q : JSValue) : Prop :=
  (∃ a b : Int, field q (utf16 "startIndex") = .num (.fin a) ∧
    field q (utf16 "endIndex") = .num (.fin b) ∧ a ≤ b) ∧
  nonBlank (field q (utf16 "context")) = true ∧
  (field q (utf16 "significance") = .str (utf16 "high") ∨
    field q (utf16 "significance") = .str (utf16 "medium") ∨
    field q (utf16 "significance") = .str (utf16 "low"))

/-- A stance signal as the chunk profile wants it: non-blank topic and position, a strength
among strong, moderate, weak. -/
def ValidStance (s : JSValue) : Prop :=
  nonBlank (field s (utf16 "topic")) = true ∧
  nonBlank (field s (utf16 "position")) = true ∧
  (field s (utf16 "strength") = .str (utf16 "strong") ∨
    field s (utf16 "strength") = .str (utf16 "moderate") ∨
    field s (utf16 "strength") = .str (utf16 "weak"))

/-- The chunk-analysis profile: keyPoints with 1 to 8 non-blank strings, at most 5 quotes all
valid, stanceSignals all valid, topics a non-empty array of non-blank strings, a non-blank
tone. -/
def ChunkValid (c : JSValue) : Prop :=
  (∃ items, field c (utf16 "keyPoints") = .arr items ∧
    1 ≤ (items.filter nonBlank).length ∧ (items.filter nonBlank).length ≤ 8) ∧
  (∃ items, field c (utf16 "quotes") = .arr items ∧ items.length ≤ 5 ∧
    ∀ q ∈ items, ValidQuote q) ∧
  (∃ items, field c (utf16 "stanceSignals") = .arr items ∧ ∀ s ∈ items, ValidStance s) ∧
  (∃ items, field c (utf16 "topics") = .arr items ∧ items ≠ [] ∧
    ∀ t ∈ items, nonBlank t = true) ∧
  nonBlank (field c (utf16 "tone")) = true

/-- A top quote as the meta profile wants it: a text of trimmed length at least 5 and a
non-blank context. -/
def ValidTopQuote (q : JSValue) : Prop :=
  minTrimmed 5 (field q (utf16 "text")) = true ∧ nonBlank (field q (utf16 "context")) = true

/-- A string that, split on runs of the characters `.`, `!`, `?`, has a piece whose trimmed
length exceeds 10. -/
def hasLongSentence : JSValue → Prop
  | .str s => ∃ piece ∈ splitSentences s, 10 < (trim piece).length
  | _ => False

/-- The meta-analysis profile. -/
def MetaValid (c : JSValue) : Prop :=
  (field c (utf16 "politicalStance") = .str (utf16 "Far Left") ∨
    field c (utf16 "politicalStance") = .str (utf16 "Left-leaning") ∨
    field c (utf16 "politicalStance") = .str (utf16 "Centrist") ∨
    field c (utf16 "politicalStance") = .str (utf16 "Right-leaning") ∨
    field c (utf16 "politicalStance") = .str (utf16 "Far Right")) ∧
  (minTrimmed 50 (field c (utf16 "paragraphSummary")) = true ∧
    hasLongSentence (field c (utf16 "paragraphSummary"))) ∧
  minTrimmed 20 (field c (utf16 "summary")) = true ∧
  (∃ items, field c (utf16 "bulletPointsSummary") = .arr items ∧
    3 ≤ (items.filter nonBlank).length ∧ (items.filter nonBlank).length ≤ 7) ∧
  (field c (utf16 "analysisConfidence") = .str (utf16 "high") ∨
    field c (utf16 "analysisConfidence") = .str (utf16 "medium") ∨
    field c (utf16 "analysisConfidence") = .str (utf16 "low")) ∧
  minTrimmed 30 (field c (utf16 "stanceExplanation")) = true ∧
  (∃ items, field c (utf16 "topQuotes") = .arr items ∧ ∀ q ∈ items, ValidTopQuote q) ∧
  (∃ items, field c (utf16 "topics") = .arr items ∧
    2 ≤ (items.filter nonBlank).length ∧ (items.filter nonBlank).length ≤ 7)

/-! ## Sample candidates -/

/-- Equality of validator outcomes is decidable. -/
instance : DecidableEq (Except JSError Report) := fun a b =>
  match a, b with
  | .ok x, .ok y =>
    if h : x = y then isTrue (by rw [h]) else isFalse (fun h2 => h (by cases h2; rfl))
  | .error x, .error y =>
    if h : x = y then isTrue (by rw [h]) else isFalse (fun h2 => h (by cases h2; rfl))
  | .ok _, .error _ => isFalse (fun h => by cases h)
  | .error _, .ok _ => isFalse (fun h => by cases h)

/-- Equality of validator runs is decidable. -/
instance : DecidableEq (Except JSError (List JSString × Report)) := fun a b =>
  match a, b with
  | .ok x, .ok y =>
    if h : x = y then isTrue (by rw [h]) else isFalse (fun h2 => h (by cases h2; rfl))
  | .error x, .error y =>
    if h : x = y then isTrue (by rw [h]) else isFalse (fun h2 => h (by cases h2; rfl))
  | .ok _, .error _ => isFalse (fun h => by cases h)
  | .error _, .ok _ => isFalse (fun h => by cases h)

/-- The Report of a chunk candidate without violation. -/
def chunkPassReport : Report :=
  ⟨true, .fin 1, utf16 "All chunk analysis quality checks passed"⟩

/-- A chunk candidate with the given fields. -/
def chunkCandidate (keyPoints quotes stanceSignals topics tone : JSValue) : JSValue :=
  .obj [(utf16 "keyPoints", keyPoints), (utf16 "quotes", quotes),
    (utf16 "stanceSignals", stanceSignals), (utf16 "topics", topics), (utf16 "tone", tone)]

/-- A quote object with the given fields. -/
def quoteObject (startIndex endIndex context significance : JSValue) : JSValue :=
  .obj [(utf16 "startIndex", startIndex), (utf16 "endIndex", endIndex),
    (utf16 "context", context), (utf16 "significance", significance)]

/-- The passing scenario of the specification: one key point, no quotes, no stance signals,
one topic, a tone. -/
def chunkSample : JSValue :=
  chunkCandidate (.arr [.str (utf16 "a")]) (.arr []) (.arr []) (.arr [.str (utf16 "x")])
    (.str (utf16 "neutral"))

/-- A candidate with exactly eight valid key points among ten elements. -/
def chunkSampleEight : JSValue :=
  chunkCandidate
    (.arr [.str (utf16 "a"), .str (utf16 "b"), .num (.fin 3), .str (utf16 "c"),
      .str (utf16 "d"), .str (utf16 "  "), .str (utf16 "e"), .str (utf16 "f"),
      .str (utf16 "g"), .str (utf16 "h")])
    (.arr []) (.arr []) (.arr [.str (utf16 "x")]) (.str (utf16 "neutral"))

/-- The failing scenario of the specification: no key point, a quote with startIndex 5 and
endIndex 2, no topic, an empty tone. -/
def chunkSampleFailing : JSValue :=
  chunkCandidate (.arr [])
    (.arr [quoteObject (.num (.fin 5)) (.num (.fin 2)) (.str (utf16 "c")) (.str (utf16 "high"))])
    (.arr []) (.arr []) (.str [])

/-- The object with the single own property `toString`, whose value is the number 1: what
`JSON.parse` yields for the text made of an opening brace, `"toString":1` and a closing
brace. -/
def unrenderable : JSValue :=
  .obj [(utf16 "toString", .num (.fin 1))]

/-- The failing scenario again, with the significance of its quote replaced by an object that
has no primitive value. -/
def chunkSampleUnrenderable : JSValue :=
  chunkCandidate (.arr [])
    (.arr [quoteObject (.num (.fin 5)) (.num (.fin 2)) (.str (utf16 "c")) unrenderable])
    (.arr []) (.arr []) (.str [])

/-- The candidate obtained from c by appending q to its quotes array. -/
def appendQuote (c q : JSValue) : JSValue :=
  match c with
  | .obj props =>
    match lookupProp (utf16 "quotes") props with
    | some (.arr items) => .obj (setProp (utf16 "quotes") (.arr (items ++ [q])) props)
    | _ => c
  | _ => c

/-- A quote object without a startIndex whose significance has no primitive value. -/
def badQuote : JSValue :=
  .obj [(utf16 "endIndex", .num (.fin 1)), (utf16 "context", .str (utf16 "c")),
    (utf16 "significance", unrenderable)]

/-- A meta candidate with the given fields. -/
def metaCandidate (politicalStance paragraphSummary summary bulletPointsSummary
    analysisConfidence stanceExplanation topQuotes topics : JSValue) : JSValue :=
  .obj [(utf16 "politicalStance", politicalStance),
    (utf16 "paragraphSummary", paragraphSummary), (utf16 "summary", summary),
    (utf16 "bulletPointsSummary", bulletPointsSummary),
    (utf16 "analysisConfidence", analysisConfidence),
    (utf16 "stanceExplanation", stanceExplanation), (utf16 "topQuotes", topQuotes),
    (utf16 "topics", topics)]

/-- A meta candidate of the scenario of the specification: a paragraphSummary of 60
characters, a summary of 25, four bullet points, a stanceExplanation of 40 characters, no top
quote, three topics. -/
def metaSample : JSValue :=
  metaCandidate (.str (utf16 "Centrist"))
    (.str (utf16 "The hosts compare both budget plans and stay fairly neutral."))
    (.str (utf16 "Two budget plans compared"))
    (.arr [.str (utf16 "a"), .str (utf16 "b"), .str (utf16 "c"), .str (utf16 "d")])
    (.str (utf16 "medium"))
    (.str (utf16 "The hosts give both sides equal airtime."))
    (.arr [])
    (.arr [.str (utf16 "tax"), .str (utf16 "debt"), .str (utf16 "jobs")])

/-- A meta candidate that fits the scenario character count for character count, with blank
texts and blank or non-string items. -/
def metaSampleBlank : JSValue :=
  metaCandidate (.str (utf16 "Centrist"))
    (.str (List.replicate 60 32))
    (.str (List.replicate 25 32))
    (.arr [.str (utf16 " "), .str [], .num (.fin 1), .null])
    (.str (utf16 "medium"))
    (.str (List.replicate 40 32))
    (.arr [])
    (.arr [.str (utf16 " "), .bool true, .str []])

/-- A meta candidate that fits the scenario, whose paragraphSummary of 60 characters is six
sentences of nine letters. -/
def metaSampleShortSentences : JSValue :=
  metaCandidate (.str (utf16 "Centrist"))
    (.str (utf16 "aaaaaaaaa.aaaaaaaaa.aaaaaaaaa.aaaaaaaaa.aaaaaaaaa.aaaaaaaaa."))
    (.str (utf16 "Two budget plans compared"))
    (.arr [.str (utf16 "a"), .str (utf16 "b"), .str (utf16 "c"), .str (utf16 "d")])
    (.str (utf16 "medium"))
    (.str (utf16 "The hosts give both sides equal airtime."))
    (.arr [])
    (.arr [.str (utf16 "tax"), .str (utf16 "debt"), .str (utf16 "jobs")])

/-- The text of the ordered-pair violation of the quote at index i whose startIndex is the
number s and whose endIndex is the number e. -/
def orderViolation (i : Nat) (s e : JSNumber) : JSString :=
  utf16 "quotes[" ++ natToString i ++ utf16 "].startIndex (" ++ numberToString s
    ++ utf16 ") > endIndex (" ++ numberToString e ++ utf16 ")"

/-- The start of every ordered-pair violation of the quote at index i. -/
def orderViolationHead (i : Nat) : JSString :=
  utf16 "quotes[" ++ natToString i ++ utf16 "].startIndex ("

/-- A quote whose startIndex is the number 5.5 and whose endIndex is 2. -/
def fractionalQuote : JSValue :=
  quoteObject (.num (.fin (11 / 2))) (.num (.fin 2)) (.str (utf16 "c")) (.str (utf16 "high"))

/-- The passing scenario of the specification with the fractional quote as its only quote. -/
def chunkSampleFractional : JSValue :=
  chunkCandidate (.arr [.str (utf16 "a")]) (.arr [fractionalQuote]) (.arr [])
    (.arr [.str (utf16 "x")]) (.str (utf16 "neutral"))

/-- The sample meta candidate with the politicalStance `Moderate`. -/
def metaSampleModerate : JSValue :=
  metaCandidate (.str (utf16 "Moderate"))
    (.str (utf16 "The hosts compare both budget plans and stay fairly neutral."))
    (.str (utf16 "Two budget plans compared"))
    (.arr [.str (utf16 "a"), .str (utf16 "b"), .str (utf16 "c"), .str (utf16 "d")])
    (.str (utf16 "medium"))
    (.str (utf16 "The hosts give both sides equal airtime."))
    (.arr [])
    (.arr [.str (utf16 "tax"), .str (utf16 "debt"), .str (utf16 "jobs")])

/-- The same candidate with `null` as its only top quote. -/
def metaSampleModerateNullQuote : JSValue :=
  metaCandidate (.str (utf16 "Moderate"))
    (.str (utf16 "The hosts compare both budget plans and stay fairly neutral."))
    (.str (utf16 "Two budget plans compared"))
    (.arr [.str (utf16 "a"), .str (utf16 "b"), .str (utf16 "c"), .str (utf16 "d")])
    (.str (utf16 "medium"))
    (.str (utf16 "The hosts give both sides equal airtime."))
    (.arr [.null])
    (.arr [.str (utf16 "tax"), .str (utf16 "debt"), .str (utf16 "jobs")])

/-! ## Invariants of the `results` array -/

/-- A statement keeps the property P of the messages: when it returns, every message of the
new `results` has P if every message of the old one had. -/
def Keeps (P : JSString → Prop) (f : List JSString → Except JSError (List JSString)) : Prop :=
  ∀ r rs, f r = .ok rs → (∀ m ∈ r, P m) → ∀ m ∈ rs, P m

/-- The array-valued fields of the two profiles, each with the block that checks it. -/
def arrayBlocks : List (String × (JSValue → List JSString → Except JSError (List JSString))) :=
  [("keyPoints", chunkKeyPoints), ("quotes", chunkQuotes),
    ("stanceSignals", chunkStanceSignals), ("topics", chunkTopics),
    ("bulletPointsSummary", metaBulletPoints), ("topQuotes", metaTopQuotes),
    ("topics", metaTopics)]

/-- Equality of the outcomes of a block is decidable. -/
instance : DecidableEq (Except JSError (List JSString)) := fun a b =>
  match a, b with
  | .ok x, .ok y =>
    if h : x = y then isTrue (by rw [h]) else isFalse (fun h2 => h (by cases h2; rfl))
  | .error x, .error y =>
    if h : x = y then isTrue (by rw [h]) else isFalse (fun h2 => h (by cases h2; rfl))
  | .ok _, .error _ => isFalse (fun h => by cases h)
  | .error _, .ok _ => isFalse (fun h => by cases h)

/-! ## Rounding and the score -/

theorem pow2_eq_zpow (e : Int) : pow2 e = (2 : ℚ) ^ e := by
  unfold pow2
  split
  · rename_i h
    have h1 : e = (e.toNat : Int) := (Int.toNat_of_nonneg h).symm
    conv_rhs => rw [h1]
    rw [zpow_natCast]
    push_cast
    rfl
  · rename_i h
    have h1 : e = -((-e).toNat : Int) := by omega
    conv_rhs => rw [h1]
    rw [zpow_neg, zpow_natCast]
    push_cast
    rw [one_div]

theorem pow2_pos (e : Int) : 0 < pow2 e := by
  rw [pow2_eq_zpow]
  positivity

theorem log2Aux_spec (fuel n : Nat) (hf : n ≤ fuel) (hn : n ≠ 0) :
    2 ^ log2Aux fuel n ≤ n ∧ n < 2 ^ (log2Aux fuel n + 1) := by
  induction fuel generalizing n with
  | zero => omega
  | succ fuel ih =>
    unfold log2Aux
    split
    · constructor <;> simp <;> omega
    · have h := ih (n / 2) (by omega) (by omega)
      constructor
      · rw [pow_succ]
        omega
      · rw [pow_succ]
        omega

theorem log2_self_le (n : Nat) (hn : n ≠ 0) : 2 ^ log2 n ≤ n :=
  (log2Aux_spec n n (le_refl n) hn).1

theorem lt_log2_self (n : Nat) (hn : n ≠ 0) : n < 2 ^ (log2 n + 1) :=
  (log2Aux_spec n n (le_refl n) hn).2

theorem floorLog2_le (q : ℚ) (hq : 0 < q) : pow2 (floorLog2 q) ≤ q := by
  unfold floorLog2
  split
  · assumption
  · have hnum : 0 < q.num := Rat.num_pos.mpr hq
    have hn : q.num.natAbs ≠ 0 := by omega
    have h1 : 2 ^ log2 q.num.natAbs ≤ q.num.natAbs := log2_self_le _ hn
    have h2 : q.den < 2 ^ (log2 q.den + 1) := lt_log2_self _ q.den_nz
    have hqe : q = (q.num.natAbs : ℚ) / (q.den : ℚ) := by
      have h3 : ((q.num.natAbs : ℤ) : ℚ) = (q.num : ℚ) := by
        rw [Int.natAbs_of_nonneg hnum.le]
      rw [← Int.cast_natCast q.num.natAbs, h3]
      exact (Rat.num_div_den q).symm
    have hden : (0 : ℚ) < (q.den : ℚ) := by exact_mod_cast q.den_pos
    rw [pow2_eq_zpow]
    have h4 : (2 : ℚ) ^ ((log2 q.num.natAbs : ℤ) - (log2 q.den : ℤ) - 1)
        = (2 : ℚ) ^ log2 q.num.natAbs / (2 : ℚ) ^ (log2 q.den + 1) := by
      rw [show ((log2 q.num.natAbs : ℤ) - (log2 q.den : ℤ) - 1)
        = (log2 q.num.natAbs : ℤ) - ((log2 q.den + 1 : ℕ) : ℤ) by push_cast; ring]
      rw [zpow_sub₀ (by norm_num), zpow_natCast, zpow_natCast]
    rw [h4]
    conv_rhs => rw [hqe]
    apply div_le_div₀ (by positivity) _ hden _
    · exact_mod_cast h1
    · exact_mod_cast h2.le

theorem floor_le_roundHalfEven (m : ℚ) : m.floor ≤ roundHalfEven m := by
  unfold roundHalfEven
  split_ifs <;> omega

theorem roundPos_nonneg (q r : ℚ) (hq : 0 ≤ q) (h : roundPos q = some r) : 0 ≤ r := by
  unfold roundPos at h
  split at h
  · cases h
    have hu := pow2_pos (max (floorLog2 q) (-1022) - 52)
    have h0 : (0 : ℤ) ≤ (q / pow2 (max (floorLog2 q) (-1022) - 52)).floor :=
      Rat.le_floor.mpr (by push_cast; positivity)
    have h1 := floor_le_roundHalfEven (q / pow2 (max (floorLog2 q) (-1022) - 52))
    have h2 : (0 : ℚ) ≤ (roundHalfEven (q / pow2 (max (floorLog2 q) (-1022) - 52)) : ℚ) := by
      exact_mod_cast le_trans h0 h1
    positivity
  · cases h

theorem roundPos_ge_one (q r : ℚ) (hq : 1 ≤ q) (h : roundPos q = some r) : 1 ≤ r := by
  unfold roundPos at h
  split at h
  · cases h
    have hq0 : 0 < q := lt_of_lt_of_le one_pos hq
    have hu := pow2_pos (max (floorLog2 q) (-1022) - 52)
    have hfl := floor_le_roundHalfEven (q / pow2 (max (floorLog2 q) (-1022) - 52))
    by_cases he : max (floorLog2 q) (-1022) ≤ 52
    · -- the unit in the last place is 1 / 2^k
      obtain ⟨k, hk⟩ : ∃ k : ℕ, max (floorLog2 q) (-1022) - 52 = -(k : ℤ) :=
        ⟨(52 - max (floorLog2 q) (-1022)).toNat, by omega⟩
      rw [hk] at hu hfl ⊢
      have hpu : pow2 (-(k : ℤ)) = 1 / (2 : ℚ) ^ k := by
        rw [pow2_eq_zpow, zpow_neg, zpow_natCast, one_div]
      have h1 : (((2 ^ k : ℕ) : ℤ) : ℚ) ≤ q / pow2 (-(k : ℤ)) := by
        rw [hpu]
        push_cast
        rw [div_div_eq_mul_div, div_one]
        have : (0 : ℚ) < (2 : ℚ) ^ k := by positivity
        nlinarith
      have h2 : ((2 ^ k : ℕ) : ℤ) ≤ roundHalfEven (q / pow2 (-(k : ℤ))) :=
        le_trans (Rat.le_floor.mpr h1) hfl
      have h3 : (((2 ^ k : ℕ) : ℤ) : ℚ) ≤ (roundHalfEven (q / pow2 (-(k : ℤ))) : ℚ) := by
        exact_mod_cast h2
      have h4 : (((2 ^ k : ℕ) : ℤ) : ℚ) * pow2 (-(k : ℤ)) = 1 := by
        rw [hpu]
        push_cast
        field_simp
      calc (1 : ℚ) = (((2 ^ k : ℕ) : ℤ) : ℚ) * pow2 (-(k : ℤ)) := h4.symm
        _ ≤ _ := mul_le_mul_of_nonneg_right h3 hu.le
    · -- the unit in the last place is at least 2
      have hmax : max (floorLog2 q) (-1022) = floorLog2 q := by
        rcases max_cases (floorLog2 q) (-1022) with ⟨h1, _⟩ | ⟨h1, _⟩
        · exact h1
        · omega
      rw [hmax] at hu hfl he ⊢
      have hle := floorLog2_le q hq0
      obtain ⟨k, hk⟩ : ∃ k : ℕ, floorLog2 q - 52 = (k : ℤ) :=
        ⟨(floorLog2 q - 52).toNat, by omega⟩
      have hpu : pow2 (floorLog2 q - 52) = (2 : ℚ) ^ k := by
        rw [pow2_eq_zpow, hk, zpow_natCast]
      have hpe : pow2 (floorLog2 q) = (2 : ℚ) ^ k * (2 : ℚ) ^ 52 := by
        rw [pow2_eq_zpow, show floorLog2 q = (k : ℤ) + 52 by omega, zpow_add₀ (by norm_num),
          zpow_natCast]
        norm_num
      have hk1 : (1 : ℚ) ≤ (2 : ℚ) ^ k := one_le_pow₀ (by norm_num)
      have h1 : ((1 : ℤ) : ℚ) ≤ q / pow2 (floorLog2 q - 52) := by
        rw [hpu, le_div_iff₀ (by positivity)]
        rw [hpe] at hle
        push_cast
        nlinarith
      have h2 : (1 : ℤ) ≤ roundHalfEven (q / pow2 (floorLog2 q - 52)) :=
        le_trans (Rat.le_floor.mpr h1) hfl
      have h3 : (1 : ℚ) ≤ (roundHalfEven (q / pow2 (floorLog2 q - 52)) : ℚ) := by
        exact_mod_cast h2
      rw [hpu] at hu h3 ⊢
      nlinarith
  · cases h

theorem roundToDouble_ge_one (q : ℚ) (hq : 1 ≤ q) :
    roundToDouble q = .posInf ∨ ∃ r, roundToDouble q = .fin r ∧ 1 ≤ r := by
  have hq0 : 0 < q := lt_of_lt_of_le one_pos hq
  unfold roundToDouble
  rw [if_neg hq0.ne', if_pos hq0]
  cases h : roundPos q with
  | none => exact Or.inl rfl
  | some r => exact Or.inr ⟨r, rfl, roundPos_ge_one q r hq h⟩

theorem roundToDouble_nonpos (q : ℚ) (hq : q ≤ 0) :
    roundToDouble q = .negInf ∨ ∃ r, roundToDouble q = .fin r ∧ r ≤ 0 := by
  unfold roundToDouble
  by_cases h0 : q = 0
  · rw [if_pos h0]
    exact Or.inr ⟨0, rfl, le_refl _⟩
  · have hlt : ¬ 0 < q := not_lt.mpr hq
    rw [if_neg h0, if_neg hlt]
    cases h : roundPos (-q) with
    | none => exact Or.inl rfl
    | some r =>
      have := roundPos_nonneg (-q) r (by linarith) h
      exact Or.inr ⟨-r, rfl, by linarith⟩

/-- Once the failures reach the weight, the score is zero. -/
theorem scoreOf_eq_zero (total failed : Nat) (ht : 0 < total) (h : total ≤ failed) :
    scoreOf total failed = .fin 0 := by
  have htq : (0 : ℚ) < (total : ℚ) := by exact_mod_cast ht
  have hq : (1 : ℚ) ≤ (failed : ℚ) / (total : ℚ) := by
    rw [le_div_iff₀ htq, one_mul]
    exact_mod_cast h
  unfold scoreOf
  have hd : jsDiv (.fin failed) (.fin total) = roundToDouble ((failed : ℚ) / (total : ℚ)) := by
    simp [jsDiv, htq.ne']
  rw [hd]
  rcases roundToDouble_ge_one _ hq with h1 | ⟨r, h1, hr⟩
  · rw [h1]
    rfl
  · rw [h1]
    have hs : jsSub (.fin 1) (.fin r) = roundToDouble (1 - r) := rfl
    rw [hs]
    rcases roundToDouble_nonpos (1 - r) (by linarith) with h2 | ⟨x, h2, hx⟩
    · rw [h2]
      rfl
    · rw [h2]
      simp [jsMax, hx]

theorem scoreOf_five_small :
    ∀ n < 5, (scoreOf 5 n).inUnitInterval = true ∧ (scoreOf 5 n = .fin 1 ↔ n = 0) ∧
      ∀ m < 5, n ≤ m → (scoreOf 5 m).gt (scoreOf 5 n) = false := by
  decide!

theorem scoreOf_eight_small :
    ∀ n < 8, (scoreOf 8 n).inUnitInterval = true ∧ (scoreOf 8 n = .fin 1 ↔ n = 0) ∧
      ∀ m < 8, n ≤ m → (scoreOf 8 m).gt (scoreOf 8 n) = false := by
  decide!

/-! ## Property reads and the `results` array -/

theorem getProp_eq (v : JSValue) (name : JSString) :
    getProp v name = if v.isNullish then .error .typeError else .ok (field v name) := by
  cases v <;> rfl

theorem ok_bind {α β : Type} (v : α) (f : α → Except JSError β) :
    (Except.ok v >>= f) = f v := rfl

theorem error_bind {α β : Type} (e : JSError) (f : α → Except JSError β) :
    ((Except.error e : Except JSError α) >>= f) = .error e := rfl

theorem bind_append (f g : List JSString → Except JSError (List JSString))
    (hf : ∀ r, f r = (f []).map (r ++ ·)) (hg : ∀ r, g r = (g []).map (r ++ ·))
    (r : List JSString) : (f r >>= g) = (f [] >>= g).map (r ++ ·) := by
  rw [hf r]
  cases f [] with
  | error e => rfl
  | ok a =>
    show g (r ++ a) = (g a).map (r ++ ·)
    rw [hg (r ++ a), hg a]
    cases g [] with
    | error e => rfl
    | ok b => simp [Except.map]

theorem bind_eq_ok_nil (x : Except JSError (List JSString))
    (g : List JSString → Except JSError (List JSString))
    (hg : ∀ r, g r = (g []).map (r ++ ·)) :
    (x >>= g) = .ok [] ↔ x = .ok [] ∧ g [] = .ok [] := by
  cases x with
  | error e => simp [bind, Except.bind]
  | ok a =>
    show g a = .ok [] ↔ _
    rw [hg a]
    cases g [] with
    | error e => simp [Except.map]
    | ok b => simp [Except.map]

theorem step_append (c : Bool) (m : JSString) (r : List JSString) :
    (if c = true then (pure (push r m) : Except JSError (List JSString)) else pure r)
      = (if c = true then (pure (push [] m) : Except JSError (List JSString))
          else pure []).map (r ++ ·) := by
  cases c <;> simp [pure, Except.pure, Except.map, push]

theorem step_eq_ok_nil (c : Bool) (m : JSString) :
    (if c = true then (pure (push [] m) : Except JSError (List JSString)) else pure [])
      = .ok [] ↔ c = false := by
  cases c <;> simp [pure, Except.pure, push]

theorem stepM_append (c : Bool) (x : Except JSError JSString) (f : JSString → JSString)
    (r : List JSString) :
    (if c = true then (x >>= fun s => (pure (push r (f s)) : Except JSError (List JSString)))
      else pure r)
      = (if c = true then (x >>= fun s => (pure (push [] (f s)) : Except JSError _))
          else pure []).map (r ++ ·) := by
  cases c <;> cases x <;> simp [bind, Except.bind, pure, Except.pure, Except.map, push]

theorem stepM_eq_ok_nil (c : Bool) (x : Except JSError JSString) (f : JSString → JSString) :
    (if c = true then (x >>= fun s => (pure (push [] (f s)) : Except JSError (List JSString)))
      else pure []) = .ok [] ↔ c = false := by
  cases c <;> cases x <;> simp [bind, Except.bind, pure, Except.pure, push]

theorem trim_nil : trim [] = [] := rfl

theorem isNonBlankString_eq (v : JSValue) : isNonBlankString v = nonBlank v := by
  cases v <;> simp [isNonBlankString, nonBlank, JSValue.isString, JSValue.trimLength,
    List.length_pos]

theorem isBlankOrMissing_eq (v : JSValue) : isBlankOrMissing v = !nonBlank v := by
  cases v <;> simp [isBlankOrMissing, nonBlank, JSValue.isString, JSValue.trimLength,
    JSValue.truthy]
  intro h
  rw [h, trim_nil]

theorem isInvalidTopic_eq (v : JSValue) : isInvalidTopic v = !nonBlank v := by
  cases v <;> simp [isInvalidTopic, nonBlank, JSValue.isString, JSValue.trimLength]

theorem isInteger_iff (v : JSValue) :
    (v.isNumber = true ∧ v.isInteger = true) ↔ ∃ a : Int, v = .num (.fin a) := by
  cases v with
  | num x =>
    cases x with
    | fin q =>
      simp only [JSValue.isNumber, JSValue.isInteger, JSNumber.isInteger, true_and,
        decide_eq_true_eq, JSValue.num.injEq, JSNumber.fin.injEq]
      rw [Rat.den_eq_one_iff]
      constructor
      · intro h
        exact ⟨q.num, h.symm⟩
      · rintro ⟨a, rfl⟩
        simp
    | _ => simp [JSValue.isNumber, JSValue.isInteger, JSNumber.isInteger]
  | _ => simp [JSValue.isNumber, JSValue.isInteger]

theorem field_nullish (v : JSValue) (name : JSString) (h : v.isNullish = true) :
    field v name = .undefined := by
  cases v <;> simp_all [JSValue.isNullish, field]

/-! ## chunk-analysis: the statements of the quotes loop -/

theorem quoteStartIndex_append (i : Nat) (q : JSValue) (r : List JSString) :
    quoteStartIndex i q r = (quoteStartIndex i q []).map (r ++ ·) := by
  unfold quoteStartIndex
  rw [getProp_eq]
  cases q.isNullish
  · exact step_append _ _ r
  · rfl

theorem quoteStartIndex_nil (i : Nat) (q : JSValue) :
    quoteStartIndex i q [] = .ok [] ↔
      q.isNullish = false ∧ (field q (utf16 "startIndex")).isNumber = true ∧
        (field q (utf16 "startIndex")).isInteger = true := by
  unfold quoteStartIndex
  rw [getProp_eq]
  cases q.isNullish
  · simp only [Bool.false_eq_true, if_false, ok_bind, step_eq_ok_nil]
    simp
  · simp [error_bind]

theorem quoteEndIndex_append (i : Nat) (q : JSValue) (r : List JSString) :
    quoteEndIndex i q r = (quoteEndIndex i q []).map (r ++ ·) := by
  unfold quoteEndIndex
  rw [getProp_eq]
  cases q.isNullish
  · exact step_append _ _ r
  · rfl

theorem quoteEndIndex_nil (i : Nat) (q : JSValue) :
    quoteEndIndex i q [] = .ok [] ↔
      q.isNullish = false ∧ (field q (utf16 "endIndex")).isNumber = true ∧
        (field q (utf16 "endIndex")).isInteger = true := by
  unfold quoteEndIndex
  rw [getProp_eq]
  cases q.isNullish
  · simp only [Bool.false_eq_true, if_false, ok_bind, step_eq_ok_nil]
    simp
  · simp [error_bind]

theorem quoteOrder_append (i : Nat) (q : JSValue) (r : List JSString) :
    quoteOrder i q r = (quoteOrder i q []).map (r ++ ·) := by
  unfold quoteOrder
  simp only [getProp_eq]
  cases q.isNullish
  · simp only [Bool.false_eq_true, if_false, ok_bind]
    cases toStringJS (field q (utf16 "startIndex")) <;>
      cases toStringJS (field q (utf16 "endIndex")) <;>
      simp [bind, Except.bind, pure, Except.pure, Except.map, push] <;> split_ifs <;> simp
  · rfl

theorem quoteOrder_nil (i : Nat) (q : JSValue) :
    quoteOrder i q [] = .ok [] ↔
      q.isNullish = false ∧
        ((field q (utf16 "startIndex")).isNumber && (field q (utf16 "endIndex")).isNumber
          && jsGreater (field q (utf16 "startIndex")) (field q (utf16 "endIndex"))) = false := by
  unfold quoteOrder
  simp only [getProp_eq]
  cases q.isNullish
  · simp only [Bool.false_eq_true, if_false, ok_bind]
    cases toStringJS (field q (utf16 "startIndex")) <;>
      cases toStringJS (field q (utf16 "endIndex")) <;>
      simp [bind, Except.bind, pure, Except.pure, push]
  · simp [error_bind]

theorem quoteContext_append (i : Nat) (q : JSValue) (r : List JSString) :
    quoteContext i q r = (quoteContext i q []).map (r ++ ·) := by
  unfold quoteContext
  rw [getProp_eq]
  cases q.isNullish
  · exact step_append _ _ r
  · rfl

theorem quoteContext_nil (i : Nat) (q : JSValue) :
    quoteContext i q [] = .ok [] ↔
      q.isNullish = false ∧ nonBlank (field q (utf16 "context")) = true := by
  unfold quoteContext
  rw [getProp_eq]
  cases q.isNullish
  · simp only [Bool.false_eq_true, if_false, ok_bind, step_eq_ok_nil, isBlankOrMissing_eq]
    simp
  · simp [error_bind]

theorem quoteSignificance_append (i : Nat) (q : JSValue) (r : List JSString) :
    quoteSignificance i q r = (quoteSignificance i q []).map (r ++ ·) := by
  unfold quoteSignificance
  rw [getProp_eq]
  cases q.isNullish
  · exact stepM_append _ _ _ r
  · rfl

theorem quoteSignificance_nil (i : Nat) (q : JSValue) :
    quoteSignificance i q [] = .ok [] ↔
      q.isNullish = false ∧
        includesValue [utf16 "high", utf16 "medium", utf16 "low"]
          (field q (utf16 "significance")) = true := by
  unfold quoteSignificance
  rw [getProp_eq]
  cases q.isNullish
  · simp only [Bool.false_eq_true, if_false, ok_bind, stepM_eq_ok_nil]
    simp
  · simp [error_bind]

theorem chunkQuote_append (i : Nat) (q : JSValue) (r : List JSString) :
    chunkQuote i q r = (chunkQuote i q []).map (r ++ ·) := by
  unfold chunkQuote
  exact bind_append _ _ (quoteStartIndex_append i q)
    (bind_append _ _ (quoteEndIndex_append i q)
      (bind_append _ _ (quoteOrder_append i q)
        (bind_append _ _ (quoteContext_append i q) (quoteSignificance_append i q)))) r

theorem includesValue_three (a b c : JSString) (v : JSValue) :
    includesValue [a, b, c] v = true ↔ v = .str a ∨ v = .str b ∨ v = .str c := by
  cases v <;> simp [includesValue]

theorem jsGreater_int (a b : Int) :
    jsGreater (.num (.fin a)) (.num (.fin b)) = decide (b < a) := by
  simp [jsGreater, JSNumber.gt]

theorem chunkQuote_nil (i : Nat) (q : JSValue) : chunkQuote i q [] = .ok [] ↔ ValidQuote q := by
  have t4 := quoteSignificance_append i q
  have t3 := bind_append _ _ (quoteContext_append i q) t4
  have t2 := bind_append _ _ (quoteOrder_append i q) t3
  have t1 := bind_append _ _ (quoteEndIndex_append i q) t2
  unfold chunkQuote
  rw [bind_eq_ok_nil _ _ t1, bind_eq_ok_nil _ _ t2, bind_eq_ok_nil _ _ t3,
    bind_eq_ok_nil _ _ t4, quoteStartIndex_nil, quoteEndIndex_nil, quoteOrder_nil,
    quoteContext_nil, quoteSignificance_nil, includesValue_three]
  unfold ValidQuote
  constructor
  · rintro ⟨⟨_, hs1, hs2⟩, ⟨_, he1, he2⟩, ⟨_, ho⟩, ⟨_, hc⟩, ⟨_, hg⟩⟩
    obtain ⟨a, ha⟩ := (isInteger_iff _).mp ⟨hs1, hs2⟩
    obtain ⟨b, hb⟩ := (isInteger_iff _).mp ⟨he1, he2⟩
    refine ⟨⟨a, b, ha, hb, ?_⟩, hc, hg⟩
    rw [ha, hb, jsGreater_int] at ho
    simpa [JSValue.isNumber] using ho
  · rintro ⟨⟨a, b, ha, hb, hab⟩, hc, hg⟩
    have hq : q.isNullish = false := by
      cases h : q.isNullish
      · rfl
      · rw [field_nullish q _ h] at ha
        cases ha
    have hs := (isInteger_iff _).mpr ⟨a, ha⟩
    have he := (isInteger_iff _).mpr ⟨b, hb⟩
    refine ⟨⟨hq, hs.1, hs.2⟩, ⟨hq, he.1, he.2⟩, ⟨hq, ?_⟩, ⟨hq, hc⟩, ⟨hq, hg⟩⟩
    rw [ha, hb, jsGreater_int]
    simpa [JSValue.isNumber] using hab

theorem chunkQuotesLoop_append (items : List JSValue) (i : Nat) (r : List JSString) :
    chunkQuotesLoop i items r = (chunkQuotesLoop i items []).map (r ++ ·) := by
  induction items generalizing i r with
  | nil => simp [chunkQuotesLoop, pure, Except.pure, Except.map]
  | cons q rest ih =>
    unfold chunkQuotesLoop
    exact bind_append _ _ (chunkQuote_append i q) (ih (i + 1)) r

theorem chunkQuotesLoop_nil (items : List JSValue) (i : Nat) :
    chunkQuotesLoop i items [] = .ok [] ↔ ∀ q ∈ items, ValidQuote q := by
  induction items generalizing i with
  | nil => simp [chunkQuotesLoop, pure, Except.pure]
  | cons q rest ih =>
    unfold chunkQuotesLoop
    rw [bind_eq_ok_nil _ _ (chunkQuotesLoop_append rest (i + 1)), chunkQuote_nil, ih]
    simp

theorem quotesCount_append (items : List JSValue) (r : List JSString) :
    quotesCount items r = (quotesCount items []).map (r ++ ·) := by
  unfold quotesCount
  split_ifs <;> simp [pure, Except.pure, Except.map, push]

theorem quotesCount_nil (items : List JSValue) :
    quotesCount items [] = .ok [] ↔ items.length ≤ 5 := by
  unfold quotesCount
  split_ifs <;> simp [pure, Except.pure, push] <;> omega

theorem chunkQuotes_append (parsed : JSValue) (r : List JSString) :
    chunkQuotes parsed r = (chunkQuotes parsed []).map (r ++ ·) := by
  unfold chunkQuotes
  rw [getProp_eq]
  cases parsed.isNullish
  · simp only [Bool.false_eq_true, if_false, ok_bind]
    cases field parsed (utf16 "quotes") with
    | arr items =>
      exact bind_append _ _ (quotesCount_append items) (chunkQuotesLoop_append items 0) r
    | _ => simp [pure, Except.pure, Except.map, push]
  · rfl

theorem chunkQuotes_nil (parsed : JSValue) :
    chunkQuotes parsed [] = .ok [] ↔
      ∃ items, field parsed (utf16 "quotes") = .arr items ∧ items.length ≤ 5 ∧
        ∀ q ∈ items, ValidQuote q := by
  unfold chunkQuotes
  rw [getProp_eq]
  cases h : parsed.isNullish
  · simp only [Bool.false_eq_true, if_false, ok_bind]
    cases field parsed (utf16 "quotes") with
    | arr items =>
      simp only [bind_eq_ok_nil _ _ (chunkQuotesLoop_append items 0), quotesCount_nil,
        chunkQuotesLoop_nil]
      simp
    | _ => simp [pure, Except.pure, push]
  · simp [error_bind, field_nullish parsed _ h]

/-! ## chunk-analysis: the statements of the stanceSignals loop -/

theorem stanceTopic_append (i : Nat) (s : JSValue) (r : List JSString) :
    stanceTopic i s r = (stanceTopic i s []).map (r ++ ·) := by
  unfold stanceTopic
  rw [getProp_eq]
  cases s.isNullish
  · exact step_append _ _ r
  · rfl

theorem stanceTopic_nil (i : Nat) (s : JSValue) :
    stanceTopic i s [] = .ok [] ↔
      s.isNullish = false ∧ nonBlank (field s (utf16 "topic")) = true := by
  unfold stanceTopic
  rw [getProp_eq]
  cases s.isNullish
  · simp only [Bool.false_eq_true, if_false, ok_bind, step_eq_ok_nil, isBlankOrMissing_eq]
    simp
  · simp [error_bind]

theorem stancePosition_append (i : Nat) (s : JSValue) (r : List JSString) :
    stancePosition i s r = (stancePosition i s []).map (r ++ ·) := by
  unfold stancePosition
  rw [getProp_eq]
  cases s.isNullish
  · exact step_append _ _ r
  · rfl

theorem stancePosition_nil (i : Nat) (s : JSValue) :
    stancePosition i s [] = .ok [] ↔
      s.isNullish = false ∧ nonBlank (field s (utf16 "position")) = true := by
  unfold stancePosition
  rw [getProp_eq]
  cases s.isNullish
  · simp only [Bool.false_eq_true, if_false, ok_bind, step_eq_ok_nil, isBlankOrMissing_eq]
    simp
  · simp [error_bind]

theorem stanceStrength_append (i : Nat) (s : JSValue) (r : List JSString) :
    stanceStrength i s r = (stanceStrength i s []).map (r ++ ·) := by
  unfold stanceStrength
  rw [getProp_eq]
  cases s.isNullish
  · exact stepM_append _ _ _ r
  · rfl

theorem stanceStrength_nil (i : Nat) (s : JSValue) :
    stanceStrength i s [] = .ok [] ↔
      s.isNullish = false ∧
        includesValue [utf16 "strong", utf16 "moderate", utf16 "weak"]
          (field s (utf16 "strength")) = true := by
  unfold stanceStrength
  rw [getProp_eq]
  cases s.isNullish
  · simp only [Bool.false_eq_true, if_false, ok_bind, stepM_eq_ok_nil]
    simp
  · simp [error_bind]

theorem chunkStance_append (i : Nat) (s : JSValue) (r : List JSString) :
    chunkStance i s r = (chunkStance i s []).map (r ++ ·) := by
  unfold chunkStance
  exact bind_append _ _ (stanceTopic_append i s)
    (bind_append _ _ (stancePosition_append i s) (stanceStrength_append i s)) r

theorem nonBlank_undefined : nonBlank .undefined = false := rfl

theorem chunkStance_nil (i : Nat) (s : JSValue) : chunkStance i s [] = .ok [] ↔ ValidStance s := by
  have t2 := stanceStrength_append i s
  have t1 := bind_append _ _ (stancePosition_append i s) t2
  unfold chunkStance
  rw [bind_eq_ok_nil _ _ t1, bind_eq_ok_nil _ _ t2, stanceTopic_nil, stancePosition_nil,
    stanceStrength_nil, includesValue_three]
  unfold ValidStance
  constructor
  · rintro ⟨⟨_, h1⟩, ⟨_, h2⟩, ⟨_, h3⟩⟩
    exact ⟨h1, h2, h3⟩
  · rintro ⟨h1, h2, h3⟩
    have hs : s.isNullish = false := by
      cases h : s.isNullish
      · rfl
      · rw [field_nullish s _ h, nonBlank_undefined] at h1
        cases h1
    exact ⟨⟨hs, h1⟩, ⟨hs, h2⟩, ⟨hs, h3⟩⟩

theorem chunkStanceLoop_append (items : List JSValue) (i : Nat) (r : List JSString) :
    chunkStanceLoop i items r = (chunkStanceLoop i items []).map (r ++ ·) := by
  induction items generalizing i r with
  | nil => simp [chunkStanceLoop, pure, Except.pure, Except.map]
  | cons s rest ih =>
    unfold chunkStanceLoop
    exact bind_append _ _ (chunkStance_append i s) (ih (i + 1)) r

theorem chunkStanceLoop_nil (items : List JSValue) (i : Nat) :
    chunkStanceLoop i items [] = .ok [] ↔ ∀ s ∈ items, ValidStance s := by
  induction items generalizing i with
  | nil => simp [chunkStanceLoop, pure, Except.pure]
  | cons s rest ih =>
    unfold chunkStanceLoop
    rw [bind_eq_ok_nil _ _ (chunkStanceLoop_append rest (i + 1)), chunkStance_nil, ih]
    simp

theorem chunkStanceSignals_append (parsed : JSValue) (r : List JSString) :
    chunkStanceSignals parsed r = (chunkStanceSignals parsed []).map (r ++ ·) := by
  unfold chunkStanceSignals
  rw [getProp_eq]
  cases parsed.isNullish
  · simp only [Bool.false_eq_true, if_false, ok_bind]
    cases field parsed (utf16 "stanceSignals") with
    | arr items => exact chunkStanceLoop_append items 0 r
    | _ => simp [pure, Except.pure, Except.map, push]
  · rfl

theorem chunkStanceSignals_nil (parsed : JSValue) :
    chunkStanceSignals parsed [] = .ok [] ↔
      ∃ items, field parsed (utf16 "stanceSignals") = .arr items ∧
        ∀ s ∈ items, ValidStance s := by
  unfold chunkStanceSignals
  rw [getProp_eq]
  cases h : parsed.isNullish
  · simp only [Bool.false_eq_true, if_false, ok_bind]
    cases field parsed (utf16 "stanceSignals") with
    | arr items => simp [chunkStanceLoop_nil]
    | _ => simp [pure, Except.pure, push]
  · simp [error_bind, field_nullish parsed _ h]

/-! ## chunk-analysis: keyPoints, topics, tone -/

theorem chunkKeyPoints_append (parsed : JSValue) (r : List JSString) :
    chunkKeyPoints parsed r = (chunkKeyPoints parsed []).map (r ++ ·) := by
  unfold chunkKeyPoints
  rw [getProp_eq]
  cases parsed.isNullish
  · simp only [Bool.false_eq_true, if_false, ok_bind]
    cases field parsed (utf16 "keyPoints") with
    | arr items =>
      simp only [pure, Except.pure, Except.map, push]
      split_ifs <;> simp
    | _ => simp [pure, Except.pure, Except.map, push]
  · rfl

theorem chunkKeyPoints_nil (parsed : JSValue) :
    chunkKeyPoints parsed [] = .ok [] ↔
      ∃ items, field parsed (utf16 "keyPoints") = .arr items ∧
        1 ≤ (items.filter nonBlank).length ∧ (items.filter nonBlank).length ≤ 8 := by
  unfold chunkKeyPoints
  rw [getProp_eq]
  cases h : parsed.isNullish
  · simp only [Bool.false_eq_true, if_false, ok_bind]
    cases field parsed (utf16 "keyPoints") with
    | arr items =>
      have hf : isNonBlankString = nonBlank := funext isNonBlankString_eq
      simp only [hf, pure, Except.pure, push, JSValue.arr.injEq, exists_eq_left']
      split_ifs <;> simp
      all_goals omega
    | _ => simp [pure, Except.pure, push]
  · simp [error_bind, field_nullish parsed _ h]

theorem chunkTopics_append (parsed : JSValue) (r : List JSString) :
    chunkTopics parsed r = (chunkTopics parsed []).map (r ++ ·) := by
  unfold chunkTopics
  rw [getProp_eq]
  cases parsed.isNullish
  · simp only [Bool.false_eq_true, if_false, ok_bind]
    cases field parsed (utf16 "topics") with
    | arr items =>
      simp only [pure, Except.pure, Except.map, push]
      split_ifs <;> simp
    | _ => simp [pure, Except.pure, Except.map, push]
  · rfl

theorem chunkTopics_nil (parsed : JSValue) :
    chunkTopics parsed [] = .ok [] ↔
      ∃ items, field parsed (utf16 "topics") = .arr items ∧ items ≠ [] ∧
        ∀ t ∈ items, nonBlank t = true := by
  unfold chunkTopics
  rw [getProp_eq]
  cases h : parsed.isNullish
  · simp only [Bool.false_eq_true, if_false, ok_bind]
    cases field parsed (utf16 "topics") with
    | arr items =>
      have hf : isInvalidTopic = fun t => !nonBlank t := funext isInvalidTopic_eq
      simp only [hf, pure, Except.pure, push, JSValue.arr.injEq, exists_eq_left']
      split_ifs with h1 h2
      · simp_all
      · simp only [List.nil_append, Except.ok.injEq, List.cons_ne_nil, false_iff, not_and]
        intro _ hall
        have : (items.filter fun t => !nonBlank t) = [] := by
          rw [List.filter_eq_nil_iff]
          intro t ht
          simp [hall t ht]
        simp [this] at h2
      · simp only [true_iff]
        refine ⟨by simpa using h1, ?_⟩
        intro t ht
        have h3 : (items.filter fun t => !nonBlank t) = [] := by
          simpa using h2
        rw [List.filter_eq_nil_iff] at h3
        simpa using h3 t ht
    | _ => simp [pure, Except.pure, push]
  · simp [error_bind, field_nullish parsed _ h]

theorem chunkTone_append (parsed : JSValue) (r : List JSString) :
    chunkTone parsed r = (chunkTone parsed []).map (r ++ ·) := by
  unfold chunkTone
  rw [getProp_eq]
  cases parsed.isNullish
  · exact step_append _ _ r
  · rfl

theorem chunkTone_nil (parsed : JSValue) :
    chunkTone parsed [] = .ok [] ↔ nonBlank (field parsed (utf16 "tone")) = true := by
  unfold chunkTone
  rw [getProp_eq]
  cases h : parsed.isNullish
  · simp only [Bool.false_eq_true, if_false, ok_bind, step_eq_ok_nil, isBlankOrMissing_eq]
    simp
  · simp [error_bind, field_nullish parsed _ h, nonBlank_undefined]

theorem chunkChecks_nil (parsed : JSValue) : chunkChecks parsed = .ok [] ↔ ChunkValid parsed := by
  have t4 := chunkTone_append parsed
  have t3 := bind_append _ _ (chunkTopics_append parsed) t4
  have t2 := bind_append _ _ (chunkStanceSignals_append parsed) t3
  have t1 := bind_append _ _ (chunkQuotes_append parsed) t2
  unfold chunkChecks ChunkValid
  rw [bind_eq_ok_nil _ _ t1, bind_eq_ok_nil _ _ t2, bind_eq_ok_nil _ _ t3,
    bind_eq_ok_nil _ _ t4, chunkKeyPoints_nil, chunkQuotes_nil, chunkStanceSignals_nil,
    chunkTopics_nil, chunkTone_nil]

/-! ## meta-analysis: the blocks -/

theorem minTrimmed_undefined (n : Nat) : minTrimmed n .undefined = false := rfl

theorem textCheck_iff (n : Nat) (hn : 0 < n) (v : JSValue) :
    ((!v.truthy || !v.isString) = false ∧ ¬ v.trimLength < n) ↔ minTrimmed n v = true := by
  cases v with
  | str s =>
    by_cases hs : s = []
    · subst hs
      simp [JSValue.truthy, JSValue.isString, JSValue.trimLength, minTrimmed, trim_nil]
      omega
    · simp [JSValue.truthy, JSValue.isString, JSValue.trimLength, minTrimmed, hs]
  | _ => simp [JSValue.truthy, JSValue.isString, minTrimmed]

theorem textStep_append (c d : Bool) (m1 m2 : JSString) (r : List JSString) :
    (if c = true then (pure (push r m1) : Except JSError (List JSString))
      else if d = true then pure (push r m2) else pure r)
      = (if c = true then (pure (push [] m1) : Except JSError (List JSString))
          else if d = true then pure (push [] m2) else pure []).map (r ++ ·) := by
  cases c <;> cases d <;> simp [pure, Except.pure, Except.map, push]

theorem textStep_eq_ok_nil (c d : Bool) (m1 m2 : JSString) :
    (if c = true then (pure (push [] m1) : Except JSError (List JSString))
      else if d = true then pure (push [] m2) else pure []) = .ok [] ↔ c = false ∧ d = false := by
  cases c <;> cases d <;> simp [pure, Except.pure, push]

theorem includesValue_iff (list : List JSString) (v : JSValue) :
    includesValue list v = true ↔ ∃ s ∈ list, v = .str s := by
  cases v <;> simp [includesValue]

theorem metaPoliticalStance_append (parsed : JSValue) (r : List JSString) :
    metaPoliticalStance parsed r = (metaPoliticalStance parsed []).map (r ++ ·) := by
  unfold metaPoliticalStance
  rw [getProp_eq]
  cases parsed.isNullish
  · exact stepM_append _ _ _ r
  · rfl

theorem metaPoliticalStance_nil (parsed : JSValue) :
    metaPoliticalStance parsed [] = .ok [] ↔
      parsed.isNullish = false ∧
        includesValue VALID_STANCES (field parsed (utf16 "politicalStance")) = true := by
  unfold metaPoliticalStance
  rw [getProp_eq]
  cases parsed.isNullish
  · simp only [Bool.false_eq_true, if_false, ok_bind, stepM_eq_ok_nil]
    simp
  · simp [error_bind]

theorem metaParagraphSummary_append (parsed : JSValue) (r : List JSString) :
    metaParagraphSummary parsed r = (metaParagraphSummary parsed []).map (r ++ ·) := by
  unfold metaParagraphSummary
  rw [getProp_eq]
  cases parsed.isNullish
  · simp only [Bool.false_eq_true, if_false, ok_bind]
    split_ifs <;> simp [pure, Except.pure, Except.map, push]
  · rfl

theorem longSentences_length (v : JSValue) :
    ¬ (v.longSentences.length < 1) ↔ hasLongSentence v := by
  cases v with
  | str s =>
    simp only [JSValue.longSentences, hasLongSentence, Nat.lt_one_iff, List.length_eq_zero,
      List.filter_eq_nil_iff, decide_eq_true_eq, not_forall, Classical.not_imp, not_not]
    constructor
    · rintro ⟨piece, hp, hl⟩
      exact ⟨piece, hp, by omega⟩
    · rintro ⟨piece, hp, hl⟩
      exact ⟨piece, hp, by omega⟩
  | _ => simp [JSValue.longSentences, hasLongSentence]

theorem metaParagraphSummary_nil (parsed : JSValue) :
    metaParagraphSummary parsed [] = .ok [] ↔
      minTrimmed 50 (field parsed (utf16 "paragraphSummary")) = true ∧
        hasLongSentence (field parsed (utf16 "paragraphSummary")) := by
  unfold metaParagraphSummary
  rw [getProp_eq]
  cases h : parsed.isNullish
  · simp only [Bool.false_eq_true, if_false, ok_bind]
    rw [← textCheck_iff 50 (by norm_num), ← longSentences_length]
    generalize field parsed (utf16 "paragraphSummary") = v
    cases hc : (!v.truthy || !v.isString) <;> by_cases hd : v.trimLength < 50 <;>
      by_cases he : v.longSentences.length < 1 <;> simp [hc, hd, he, pure, Except.pure, push]
  · simp [error_bind, field_nullish parsed _ h, minTrimmed_undefined]

theorem metaSummary_append (parsed : JSValue) (r : List JSString) :
    metaSummary parsed r = (metaSummary parsed []).map (r ++ ·) := by
  unfold metaSummary
  rw [getProp_eq]
  cases parsed.isNullish
  · simp only [Bool.false_eq_true, if_false, ok_bind]
    split_ifs <;> simp [pure, Except.pure, Except.map, push]
  · rfl

theorem metaSummary_nil (parsed : JSValue) :
    metaSummary parsed [] = .ok [] ↔ minTrimmed 20 (field parsed (utf16 "summary")) = true := by
  unfold metaSummary
  rw [getProp_eq]
  cases h : parsed.isNullish
  · simp only [Bool.false_eq_true, if_false, ok_bind]
    rw [← textCheck_iff 20 (by norm_num)]
    generalize field parsed (utf16 "summary") = v
    cases hc : (!v.truthy || !v.isString) <;> by_cases hd : v.trimLength < 20 <;>
      simp [hc, hd, pure, Except.pure, push]
  · simp [error_bind, field_nullish parsed _ h, minTrimmed_undefined]

theorem metaStanceExplanation_append (parsed : JSValue) (r : List JSString) :
    metaStanceExplanation parsed r = (metaStanceExplanation parsed []).map (r ++ ·) := by
  unfold metaStanceExplanation
  rw [getProp_eq]
  cases parsed.isNullish
  · simp only [Bool.false_eq_true, if_false, ok_bind]
    split_ifs <;> simp [pure, Except.pure, Except.map, push]
  · rfl

theorem metaStanceExplanation_nil (parsed : JSValue) :
    metaStanceExplanation parsed [] = .ok [] ↔
      minTrimmed 30 (field parsed (utf16 "stanceExplanation")) = true := by
  unfold metaStanceExplanation
  rw [getProp_eq]
  cases h : parsed.isNullish
  · simp only [Bool.false_eq_true, if_false, ok_bind]
    rw [← textCheck_iff 30 (by norm_num)]
    generalize field parsed (utf16 "stanceExplanation") = v
    cases hc : (!v.truthy || !v.isString) <;> by_cases hd : v.trimLength < 30 <;>
      simp [hc, hd, pure, Except.pure, push]
  · simp [error_bind, field_nullish parsed _ h, minTrimmed_undefined]

theorem metaBulletPoints_append (parsed : JSValue) (r : List JSString) :
    metaBulletPoints parsed r = (metaBulletPoints parsed []).map (r ++ ·) := by
  unfold metaBulletPoints
  rw [getProp_eq]
  cases parsed.isNullish
  · simp only [Bool.false_eq_true, if_false, ok_bind]
    cases field parsed (utf16 "bulletPointsSummary") with
    | arr items =>
      simp only [pure, Except.pure, Except.map, push]
      split_ifs <;> simp
    | _ => simp [pure, Except.pure, Except.map, push]
  · rfl

theorem metaBulletPoints_nil (parsed : JSValue) :
    metaBulletPoints parsed [] = .ok [] ↔
      ∃ items, field parsed (utf16 "bulletPointsSummary") = .arr items ∧
        3 ≤ (items.filter nonBlank).length ∧ (items.filter nonBlank).length ≤ 7 := by
  unfold metaBulletPoints
  rw [getProp_eq]
  cases h : parsed.isNullish
  · simp only [Bool.false_eq_true, if_false, ok_bind]
    cases field parsed (utf16 "bulletPointsSummary") with
    | arr items =>
      have hf : isNonBlankString = nonBlank := funext isNonBlankString_eq
      simp only [hf, pure, Except.pure, push, JSValue.arr.injEq, exists_eq_left']
      split_ifs <;> simp
      all_goals omega
    | _ => simp [pure, Except.pure, push]
  · simp [error_bind, field_nullish parsed _ h]

theorem metaConfidence_append (parsed : JSValue) (r : List JSString) :
    metaConfidence parsed r = (metaConfidence parsed []).map (r ++ ·) := by
  unfold metaConfidence
  rw [getProp_eq]
  cases parsed.isNullish
  · exact stepM_append _ _ _ r
  · rfl

theorem metaConfidence_nil (parsed : JSValue) :
    metaConfidence parsed [] = .ok [] ↔
      parsed.isNullish = false ∧
        includesValue VALID_CONFIDENCE (field parsed (utf16 "analysisConfidence")) = true := by
  unfold metaConfidence
  rw [getProp_eq]
  cases parsed.isNullish
  · simp only [Bool.false_eq_true, if_false, ok_bind, stepM_eq_ok_nil]
    simp
  · simp [error_bind]

theorem topQuoteText_append (i : Nat) (q : JSValue) (r : List JSString) :
    topQuoteText i q r = (topQuoteText i q []).map (r ++ ·) := by
  unfold topQuoteText
  rw [getProp_eq]
  cases q.isNullish
  · exact step_append _ _ r
  · rfl

theorem topQuoteText_nil (i : Nat) (q : JSValue) :
    topQuoteText i q [] = .ok [] ↔
      q.isNullish = false ∧ minTrimmed 5 (field q (utf16 "text")) = true := by
  unfold topQuoteText
  rw [getProp_eq]
  cases q.isNullish
  · simp only [Bool.false_eq_true, if_false, ok_bind, step_eq_ok_nil]
    rw [← textCheck_iff 5 (by norm_num)]
    simp
  · simp [error_bind]

theorem topQuoteContext_append (i : Nat) (q : JSValue) (r : List JSString) :
    topQuoteContext i q r = (topQuoteContext i q []).map (r ++ ·) := by
  unfold topQuoteContext
  rw [getProp_eq]
  cases q.isNullish
  · exact step_append _ _ r
  · rfl

theorem topQuoteContext_nil (i : Nat) (q : JSValue) :
    topQuoteContext i q [] = .ok [] ↔
      q.isNullish = false ∧ nonBlank (field q (utf16 "context")) = true := by
  unfold topQuoteContext
  rw [getProp_eq]
  cases q.isNullish
  · simp only [Bool.false_eq_true, if_false, ok_bind, step_eq_ok_nil, isBlankOrMissing_eq]
    simp
  · simp [error_bind]

theorem metaTopQuote_append (i : Nat) (q : JSValue) (r : List JSString) :
    metaTopQuote i q r = (metaTopQuote i q []).map (r ++ ·) := by
  unfold metaTopQuote
  exact bind_append _ _ (topQuoteText_append i q) (topQuoteContext_append i q) r

theorem metaTopQuote_nil (i : Nat) (q : JSValue) :
    metaTopQuote i q [] = .ok [] ↔ ValidTopQuote q := by
  unfold metaTopQuote
  rw [bind_eq_ok_nil _ _ (topQuoteContext_append i q), topQuoteText_nil, topQuoteContext_nil]
  unfold ValidTopQuote
  constructor
  · rintro ⟨⟨_, h1⟩, ⟨_, h2⟩⟩
    exact ⟨h1, h2⟩
  · rintro ⟨h1, h2⟩
    have hq : q.isNullish = false := by
      cases h : q.isNullish
      · rfl
      · rw [field_nullish q _ h, nonBlank_undefined] at h2
        cases h2
    exact ⟨⟨hq, h1⟩, ⟨hq, h2⟩⟩

theorem metaTopQuotesLoop_append (items : List JSValue) (i : Nat) (r : List JSString) :
    metaTopQuotesLoop i items r = (metaTopQuotesLoop i items []).map (r ++ ·) := by
  induction items generalizing i r with
  | nil => simp [metaTopQuotesLoop, pure, Except.pure, Except.map]
  | cons q rest ih =>
    unfold metaTopQuotesLoop
    exact bind_append _ _ (metaTopQuote_append i q) (ih (i + 1)) r

theorem metaTopQuotesLoop_nil (items : List JSValue) (i : Nat) :
    metaTopQuotesLoop i items [] = .ok [] ↔ ∀ q ∈ items, ValidTopQuote q := by
  induction items generalizing i with
  | nil => simp [metaTopQuotesLoop, pure, Except.pure]
  | cons q rest ih =>
    unfold metaTopQuotesLoop
    rw [bind_eq_ok_nil _ _ (metaTopQuotesLoop_append rest (i + 1)), metaTopQuote_nil, ih]
    simp

theorem metaTopQuotes_append (parsed : JSValue) (r : List JSString) :
    metaTopQuotes parsed r = (metaTopQuotes parsed []).map (r ++ ·) := by
  unfold metaTopQuotes
  rw [getProp_eq]
  cases parsed.isNullish
  · simp only [Bool.false_eq_true, if_false, ok_bind]
    cases field parsed (utf16 "topQuotes") with
    | arr items => exact metaTopQuotesLoop_append items 0 r
    | _ => simp [pure, Except.pure, Except.map, push]
  · rfl

theorem metaTopQuotes_nil (parsed : JSValue) :
    metaTopQuotes parsed [] = .ok [] ↔
      ∃ items, field parsed (utf16 "topQuotes") = .arr items ∧
        ∀ q ∈ items, ValidTopQuote q := by
  unfold metaTopQuotes
  rw [getProp_eq]
  cases h : parsed.isNullish
  · simp only [Bool.false_eq_true, if_false, ok_bind]
    cases field parsed (utf16 "topQuotes") with
    | arr items => simp [metaTopQuotesLoop_nil]
    | _ => simp [pure, Except.pure, push]
  · simp [error_bind, field_nullish parsed _ h]

theorem metaTopics_append (parsed : JSValue) (r : List JSString) :
    metaTopics parsed r = (metaTopics parsed []).map (r ++ ·) := by
  unfold metaTopics
  rw [getProp_eq]
  cases parsed.isNullish
  · simp only [Bool.false_eq_true, if_false, ok_bind]
    cases field parsed (utf16 "topics") with
    | arr items =>
      simp only [pure, Except.pure, Except.map, push]
      split_ifs <;> simp
    | _ => simp [pure, Except.pure, Except.map, push]
  · rfl

theorem metaTopics_nil (parsed : JSValue) :
    metaTopics parsed [] = .ok [] ↔
      ∃ items, field parsed (utf16 "topics") = .arr items ∧
        2 ≤ (items.filter nonBlank).length ∧ (items.filter nonBlank).length ≤ 7 := by
  unfold metaTopics
  rw [getProp_eq]
  cases h : parsed.isNullish
  · simp only [Bool.false_eq_true, if_false, ok_bind]
    cases field parsed (utf16 "topics") with
    | arr items =>
      have hf : isNonBlankString = nonBlank := funext isNonBlankString_eq
      simp only [hf, pure, Except.pure, push, JSValue.arr.injEq, exists_eq_left']
      split_ifs <;> simp
      all_goals omega
    | _ => simp [pure, Except.pure, push]
  · simp [error_bind, field_nullish parsed _ h]

theorem metaChecks_nil (parsed : JSValue) : metaChecks parsed = .ok [] ↔ MetaValid parsed := by
  have t7 := metaTopics_append parsed
  have t6 := bind_append _ _ (metaTopQuotes_append parsed) t7
  have t5 := bind_append _ _ (metaStanceExplanation_append parsed) t6
  have t4 := bind_append _ _ (metaConfidence_append parsed) t5
  have t3 := bind_append _ _ (metaBulletPoints_append parsed) t4
  have t2 := bind_append _ _ (metaSummary_append parsed) t3
  have t1 := bind_append _ _ (metaParagraphSummary_append parsed) t2
  unfold metaChecks MetaValid
  rw [bind_eq_ok_nil _ _ t1, bind_eq_ok_nil _ _ t2, bind_eq_ok_nil _ _ t3,
    bind_eq_ok_nil _ _ t4, bind_eq_ok_nil _ _ t5, bind_eq_ok_nil _ _ t6,
    bind_eq_ok_nil _ _ t7, metaPoliticalStance_nil, metaParagraphSummary_nil, metaSummary_nil,
    metaBulletPoints_nil, metaConfidence_nil, metaStanceExplanation_nil, metaTopQuotes_nil,
    metaTopics_nil, includesValue_iff, includesValue_iff]
  constructor
  · rintro ⟨⟨_, h1⟩, h2, h3, h4, ⟨_, h5⟩, h6, h7, h8⟩
    refine ⟨?_, h2, h3, h4, ?_, h6, h7, h8⟩
    · simpa [VALID_STANCES] using h1
    · simpa [VALID_CONFIDENCE] using h5
  · rintro ⟨h1, h2, h3, h4, h5, h6, h7, h8⟩
    have hp : parsed.isNullish = false := by
      cases h : parsed.isNullish
      · rfl
      · rw [field_nullish parsed _ h, minTrimmed_undefined] at h3
        cases h3
    refine ⟨⟨hp, ?_⟩, h2, h3, h4, ⟨hp, ?_⟩, h6, h7, h8⟩
    · simpa [VALID_STANCES] using h1
    · simpa [VALID_CONFIDENCE] using h5

/-! ## The score and the returned object -/

theorem scoreOf_five_unit (n : Nat) : (scoreOf 5 n).inUnitInterval = true := by
  rcases Nat.lt_or_ge n 5 with h | h
  · exact (scoreOf_five_small n h).1
  · rw [scoreOf_eq_zero 5 n (by norm_num) h]
    rfl

theorem scoreOf_eight_unit (n : Nat) : (scoreOf 8 n).inUnitInterval = true := by
  rcases Nat.lt_or_ge n 8 with h | h
  · exact (scoreOf_eight_small n h).1
  · rw [scoreOf_eq_zero 8 n (by norm_num) h]
    rfl

theorem scoreOf_five_one_iff (n : Nat) : scoreOf 5 n = .fin 1 ↔ n = 0 := by
  rcases Nat.lt_or_ge n 5 with h | h
  · exact (scoreOf_five_small n h).2.1
  · rw [scoreOf_eq_zero 5 n (by norm_num) h]
    simp
    omega

theorem scoreOf_eight_one_iff (n : Nat) : scoreOf 8 n = .fin 1 ↔ n = 0 := by
  rcases Nat.lt_or_ge n 8 with h | h
  · exact (scoreOf_eight_small n h).2.1
  · rw [scoreOf_eq_zero 8 n (by norm_num) h]
    simp
    omega

theorem gt_zero_of_unit (x : JSNumber) (h : x.inUnitInterval = true) :
    (JSNumber.fin 0).gt x = false := by
  cases x with
  | fin q =>
    simp only [JSNumber.inUnitInterval, Bool.and_eq_true, decide_eq_true_eq] at h
    simp [JSNumber.gt, h.1]
  | _ => simp [JSNumber.inUnitInterval] at h

theorem scoreOf_five_mono (n m : Nat) (h : n ≤ m) : (scoreOf 5 m).gt (scoreOf 5 n) = false := by
  rcases Nat.lt_or_ge m 5 with hm | hm
  · exact (scoreOf_five_small n (by omega)).2.2 m hm h
  · rw [scoreOf_eq_zero 5 m (by norm_num) hm]
    exact gt_zero_of_unit _ (scoreOf_five_unit n)

theorem scoreOf_eight_mono (n m : Nat) (h : n ≤ m) :
    (scoreOf 8 m).gt (scoreOf 8 n) = false := by
  rcases Nat.lt_or_ge m 8 with hm | hm
  · exact (scoreOf_eight_small n (by omega)).2.2 m hm h
  · rw [scoreOf_eq_zero 8 m (by norm_num) hm]
    exact gt_zero_of_unit _ (scoreOf_eight_unit n)

theorem chunkRun_decoded (output parsed : JSValue) (h : decodeOutput output = some parsed) :
    chunkRun output = (chunkChecks parsed).map fun results => (results, chunkReport results) := by
  unfold chunkRun
  rw [h]
  show (chunkChecks parsed >>= fun results => pure (results, chunkReport results)) = _
  cases chunkChecks parsed <;> rfl

theorem metaRun_decoded (output parsed : JSValue) (h : decodeOutput output = some parsed) :
    metaRun output = (metaChecks parsed).map fun results => (results, metaReport results) := by
  unfold metaRun
  rw [h]
  show (metaChecks parsed >>= fun results => pure (results, metaReport results)) = _
  cases metaChecks parsed <;> rfl

theorem chunkAnalysis_decoded (output parsed : JSValue) (h : decodeOutput output = some parsed) :
    chunkAnalysis output = (chunkChecks parsed).map chunkReport := by
  unfold chunkAnalysis
  rw [chunkRun_decoded output parsed h]
  cases chunkChecks parsed <;> rfl

theorem metaAnalysis_decoded (output parsed : JSValue) (h : decodeOutput output = some parsed) :
    metaAnalysis output = (metaChecks parsed).map metaReport := by
  unfold metaAnalysis
  rw [metaRun_decoded output parsed h]
  cases metaChecks parsed <;> rfl

theorem chunkReport_pass (results : List JSString) :
    (chunkReport results).pass = true ↔ results = [] := by
  simp [chunkReport]

theorem metaReport_pass (results : List JSString) :
    (metaReport results).pass = true ↔ results = [] := by
  simp [metaReport]

theorem chunkReport_score_one (results : List JSString) :
    (chunkReport results).score = .fin 1 ↔ results = [] := by
  simp [chunkReport, scoreOf_five_one_iff]

theorem metaReport_score_one (results : List JSString) :
    (metaReport results).score = .fin 1 ↔ results = [] := by
  simp [metaReport, scoreOf_eight_one_iff]

theorem chunkReport_nil :
    chunkReport [] = ⟨true, .fin 1, utf16 "All chunk analysis quality checks passed"⟩ := by
  decide!

theorem metaReport_nil :
    metaReport [] = ⟨true, .fin 1, utf16 "All meta-analysis quality checks passed"⟩ := by
  decide!

theorem chunk_pass_iff (output parsed : JSValue) (h : decodeOutput output = some parsed) :
    (∃ r, chunkAnalysis output = .ok r ∧ r.pass = true ∧ r.score = .fin 1) ↔
      chunkChecks parsed = .ok [] := by
  rw [chunkAnalysis_decoded output parsed h]
  cases hc : chunkChecks parsed with
  | error e => simp [Except.map]
  | ok results =>
    simp only [Except.map, Except.ok.injEq, exists_eq_left']
    rw [chunkReport_pass, chunkReport_score_one]
    simp

theorem meta_pass_iff (output parsed : JSValue) (h : decodeOutput output = some parsed) :
    (∃ r, metaAnalysis output = .ok r ∧ r.pass = true ∧ r.score = .fin 1) ↔
      metaChecks parsed = .ok [] := by
  rw [metaAnalysis_decoded output parsed h]
  cases hc : metaChecks parsed with
  | error e => simp [Except.map]
  | ok results =>
    simp only [Except.map, Except.ok.injEq, exists_eq_left']
    rw [metaReport_pass, metaReport_score_one]
    simp

/-! ## What a returned violation list looks like -/

/-- The violation list of chunk-analysis, when one is returned, is the concatenation of the
lists of the five blocks, each run on its own, in the order keyPoints, quotes, stanceSignals,
topics, tone; it is not returned when a block throws. -/
theorem chunkChecks_concat (parsed : JSValue) :
    chunkChecks parsed = (do
      let a ← chunkKeyPoints parsed []
      let b ← chunkQuotes parsed []
      let c ← chunkStanceSignals parsed []
      let d ← chunkTopics parsed []
      let e ← chunkTone parsed []
      pure (a ++ (b ++ (c ++ (d ++ e))))) := by
  unfold chunkChecks
  cases chunkKeyPoints parsed [] with
  | error e => rfl
  | ok a =>
    simp only [ok_bind]
    rw [chunkQuotes_append parsed a]
    cases chunkQuotes parsed [] with
    | error e => rfl
    | ok b =>
      simp only [Except.map, ok_bind]
      rw [chunkStanceSignals_append parsed (a ++ b)]
      cases chunkStanceSignals parsed [] with
      | error e => rfl
      | ok c =>
        simp only [Except.map, ok_bind]
        rw [chunkTopics_append parsed (a ++ b ++ c)]
        cases chunkTopics parsed [] with
        | error e => rfl
        | ok d =>
          simp only [Except.map, ok_bind]
          rw [chunkTone_append parsed (a ++ b ++ c ++ d)]
          cases chunkTone parsed [] with
          | error e => rfl
          | ok e => simp [Except.map, pure, Except.pure, ok_bind]

/-- The messages of the quotes loop, when it returns, are those of the first element followed
by those of the remaining elements, whose indices are one greater. -/
theorem chunkQuotesLoop_cons (i : Nat) (q : JSValue) (rest : List JSValue) :
    chunkQuotesLoop i (q :: rest) [] = (do
      let a ← chunkQuote i q []
      let b ← chunkQuotesLoop (i + 1) rest []
      pure (a ++ b)) := by
  show (chunkQuote i q [] >>= fun r => chunkQuotesLoop (i + 1) rest r) = _
  cases chunkQuote i q [] with
  | error e => rfl
  | ok a =>
    simp only [ok_bind]
    rw [chunkQuotesLoop_append rest (i + 1) a]
    cases chunkQuotesLoop (i + 1) rest [] <;> rfl

/-- The messages of one quote, when they are returned, are those of its five statements in
source order. -/
theorem chunkQuote_concat (i : Nat) (q : JSValue) :
    chunkQuote i q [] = (do
      let a ← quoteStartIndex i q []
      let b ← quoteEndIndex i q []
      let c ← quoteOrder i q []
      let d ← quoteContext i q []
      let e ← quoteSignificance i q []
      pure (a ++ (b ++ (c ++ (d ++ e))))) := by
  unfold chunkQuote
  cases quoteStartIndex i q [] with
  | error e => rfl
  | ok a =>
    simp only [ok_bind]
    rw [quoteEndIndex_append i q a]
    cases quoteEndIndex i q [] with
    | error e => rfl
    | ok b =>
      simp only [Except.map, ok_bind]
      rw [quoteOrder_append i q (a ++ b)]
      cases quoteOrder i q [] with
      | error e => rfl
      | ok c =>
        simp only [Except.map, ok_bind]
        rw [quoteContext_append i q (a ++ b ++ c)]
        cases quoteContext i q [] with
        | error e => rfl
        | ok d =>
          simp only [Except.map, ok_bind]
          rw [quoteSignificance_append i q (a ++ b ++ c ++ d)]
          cases quoteSignificance i q [] with
          | error e => rfl
          | ok e => simp [Except.map, pure, Except.pure, ok_bind]

theorem lookupProp_setProp (name : JSString) (v : JSValue) (props : List (JSString × JSValue)) :
    lookupProp name (setProp name v props) = some v := by
  induction props with
  | nil => simp [setProp, lookupProp]
  | cons p rest ih =>
    obtain ⟨k, w⟩ := p
    by_cases hk : k = name
    · simp [setProp, lookupProp, hk]
    · simp [setProp, lookupProp, hk, ih]

/-- Whenever chunk-analysis returns a Report for a passing candidate with one more quote whose
startIndex is not an integer, that Report has `pass = false` and a score below the score 1 of
the passing candidate. -/
theorem appended_quote_report (c q : JSValue) (report : Report) (hc : ChunkValid c)
    (hq : ¬ ((field q (utf16 "startIndex")).isNumber = true ∧
      (field q (utf16 "startIndex")).isInteger = true))
    (hr : chunkAnalysis (appendQuote c q) = .ok report) :
    report.pass = false ∧ (JSNumber.fin 1).gt report.score = true := by
  obtain ⟨_, ⟨items, hitems, _, _⟩, _⟩ := hc
  cases c with
  | obj props =>
    have hl : lookupProp (utf16 "quotes") props = some (.arr items) := by
      simp only [field] at hitems
      cases hlk : lookupProp (utf16 "quotes") props with
      | none => rw [hlk] at hitems; cases hitems
      | some v => rw [hlk] at hitems; exact congrArg some hitems
    have ha : appendQuote (.obj props) q
        = .obj (setProp (utf16 "quotes") (.arr (items ++ [q])) props) := by
      simp [appendQuote, hl]
    rw [ha] at hr
    have hnv : ¬ ChunkValid (.obj (setProp (utf16 "quotes") (.arr (items ++ [q])) props)) := by
      rintro ⟨_, ⟨items2, h2, _, hall⟩, _⟩
      simp only [field, lookupProp_setProp, Option.getD_some, JSValue.arr.injEq] at h2
      have hvq : ValidQuote q := hall q (by rw [← h2]; simp)
      obtain ⟨⟨a, _, ha1, _, _⟩, _⟩ := hvq
      exact hq ((isInteger_iff _).mpr ⟨a, ha1⟩)
    rw [chunkAnalysis_decoded
      (.obj (setProp (utf16 "quotes") (.arr (items ++ [q])) props)) _ rfl] at hr
    cases hk : chunkChecks (.obj (setProp (utf16 "quotes") (.arr (items ++ [q])) props)) with
    | error e => rw [hk] at hr; cases hr
    | ok results =>
      rw [hk] at hr
      cases hr
      have hne : results ≠ [] := by
        intro h0
        rw [h0] at hk
        exact hnv ((chunkChecks_nil _).mp hk)
      have hp : (chunkReport results).pass = false := by
        cases hpb : (chunkReport results).pass
        · rfl
        · exact absurd ((chunkReport_pass results).mp hpb) hne
      refine ⟨hp, ?_⟩
      have hu := scoreOf_five_unit results.length
      have hs : scoreOf 5 results.length ≠ .fin 1 := fun h1 =>
        hne (List.length_eq_zero.mp ((scoreOf_five_one_iff _).mp h1))
      show (JSNumber.fin 1).gt (scoreOf 5 results.length) = true
      cases hx : scoreOf 5 results.length with
      | fin x =>
        rw [hx] at hu hs
        simp only [JSNumber.inUnitInterval, Bool.and_eq_true, decide_eq_true_eq] at hu
        have hx1 : x ≠ 1 := fun h1 => hs (by rw [h1])
        simp only [JSNumber.gt, decide_eq_true_eq]
        exact lt_of_le_of_ne hu.2 hx1
      | nan => rw [hx] at hu; cases hu
      | posInf => rw [hx] at hu; cases hu
      | negInf => rw [hx] at hu; cases hu
  | _ => simp [field] at hitems

/-! ## The claims -/

/-- C1: when `JSON.parse` throws on the text handed to a validator, chunk-analysis and
meta-analysis both return exactly `{ pass: false, score: 0, reason: "Output is not valid JSON" }`,
whatever the text, and `results` is still empty when they return: no field rule has run. -/
theorem invalid_json_report (text : JSString) (h : jsonParse text = none) :
    chunkAnalysis (.str text) = .ok ⟨false, .fin 0, utf16 "Output is not valid JSON"⟩ ∧
    metaAnalysis (.str text) = .ok ⟨false, .fin 0, utf16 "Output is not valid JSON"⟩ ∧
    chunkRun (.str text) = .ok ([], ⟨false, .fin 0, utf16 "Output is not valid JSON"⟩) ∧
    metaRun (.str text) = .ok ([], ⟨false, .fin 0, utf16 "Output is not valid JSON"⟩) := by
  simp [chunkAnalysis, metaAnalysis, chunkRun, metaRun, decodeOutput, h, Except.map,
    notJsonReport]

/-- Witness of C1 at the text `not json`. -/
theorem invalid_json_report_witness :
    jsonParse (utf16 "not json") = none ∧
    chunkAnalysis (.str (utf16 "not json"))
      = .ok ⟨false, .fin 0, utf16 "Output is not valid JSON"⟩ :=
  ⟨rfl, (invalid_json_report (utf16 "not json") rfl).1⟩

/-- C2 (the code at the failing inputs): on the JSON text `null`, on the decoded value `null`,
on a candidate whose quotes (or topQuotes) array holds `null`, and on a candidate whose
politicalStance is an object with an own property `toString`, the validators throw a
TypeError instead of returning a Report. -/
theorem null_candidate_throws :
    chunkAnalysis (.str (utf16 "null")) = .error .typeError ∧
    metaAnalysis (.str (utf16 "null")) = .error .typeError ∧
    chunkAnalysis .null = .error .typeError ∧
    metaAnalysis .null = .error .typeError ∧
    chunkAnalysis (chunkCandidate (.arr [.str (utf16 "a")]) (.arr [.null]) (.arr [])
      (.arr [.str (utf16 "x")]) (.str (utf16 "neutral"))) = .error .typeError ∧
    metaAnalysis (.obj [(utf16 "topQuotes", .arr [.null])]) = .error .typeError ∧
    metaAnalysis (.obj [(utf16 "politicalStance", unrenderable)]) = .error .typeError := by
  decide!

/-- C3: for a candidate that decodes, the score of the returned Report is
`Math.max(0, 1 - n / W)` (in binary64 arithmetic) where n is the length of `results` and W is
5 for chunk-analysis and 8 for meta-analysis; a Report is returned whenever the field checks
complete; the score is a finite number in [0, 1]; and more violations never give a greater
score. -/
theorem score_formula (output parsed : JSValue) (h : decodeOutput output = some parsed) :
    (∀ results, chunkChecks parsed = .ok results →
      ∃ report, chunkRun output = .ok (results, report) ∧ chunkAnalysis output = .ok report ∧
        report.score = jsMax (.fin 0) (jsSub (.fin 1) (jsDiv (.fin results.length) (.fin 5)))
        ∧ report.score.inUnitInterval = true) ∧
    (∀ results, metaChecks parsed = .ok results →
      ∃ report, metaRun output = .ok (results, report) ∧ metaAnalysis output = .ok report ∧
        report.score = jsMax (.fin 0) (jsSub (.fin 1) (jsDiv (.fin results.length) (.fin 8)))
        ∧ report.score.inUnitInterval = true) ∧
    (∀ results report, chunkRun output = .ok (results, report) →
      chunkChecks parsed = .ok results ∧ report.score = scoreOf 5 results.length) ∧
    (∀ results report, metaRun output = .ok (results, report) →
      metaChecks parsed = .ok results ∧ report.score = scoreOf 8 results.length) ∧
    (∀ n m : Nat, n ≤ m →
      (scoreOf 5 m).gt (scoreOf 5 n) = false ∧ (scoreOf 8 m).gt (scoreOf 8 n) = false) := by
  refine ⟨?_, ?_, ?_, ?_, ?_⟩
  · intro results hr
    refine ⟨chunkReport results, ?_, ?_, rfl, scoreOf_five_unit _⟩
    · rw [chunkRun_decoded output parsed h, hr]
      rfl
    · rw [chunkAnalysis_decoded output parsed h, hr]
      rfl
  · intro results hr
    refine ⟨metaReport results, ?_, ?_, rfl, scoreOf_eight_unit _⟩
    · rw [metaRun_decoded output parsed h, hr]
      rfl
    · rw [metaAnalysis_decoded output parsed h, hr]
      rfl
  · intro results report hr
    rw [chunkRun_decoded output parsed h] at hr
    cases hc : chunkChecks parsed with
    | error e => rw [hc] at hr; cases hr
    | ok rs =>
      rw [hc] at hr
      cases hr
      exact ⟨rfl, rfl⟩
  · intro results report hr
    rw [metaRun_decoded output parsed h] at hr
    cases hc : metaChecks parsed with
    | error e => rw [hc] at hr; cases hr
    | ok rs =>
      rw [hc] at hr
      cases hr
      exact ⟨rfl, rfl⟩
  · intro n m hnm
    exact ⟨scoreOf_five_mono n m hnm, scoreOf_eight_mono n m hnm⟩

/-- Witness of C3 at the failing scenario of the specification. -/
theorem score_formula_witness :
    decodeOutput chunkSampleFailing = some chunkSampleFailing ∧
    ∀ results report, chunkRun chunkSampleFailing = .ok (results, report) →
      chunkChecks chunkSampleFailing = .ok results ∧ report.score = scoreOf 5 results.length :=
  ⟨rfl, (score_formula chunkSampleFailing chunkSampleFailing rfl).2.2.1⟩

/-- C4 as stated fails: on a text that is not JSON each validator returns a Report with
`pass = false` although `results` is empty, so `pass` is not "true iff zero violations". -/
theorem decode_failure_has_no_violation :
    (∃ results report, chunkRun (.str (utf16 "oops")) = .ok (results, report) ∧
      results = [] ∧ report.pass = false) ∧
    (∃ results report, metaRun (.str (utf16 "oops")) = .ok (results, report) ∧
      results = [] ∧ report.pass = false) :=
  ⟨⟨[], notJsonReport, rfl, rfl, rfl⟩, ⟨[], notJsonReport, rfl, rfl, rfl⟩⟩

/-- C4 amended: for every Report a validator returns, the decode-failure Report included,
`pass` is true iff the score is 1; and when the candidate decoded, `pass` is true iff
`results` is empty. -/
theorem pass_iff_score_one (output : JSValue) (results : List JSString) (report : Report)
    (h : chunkRun output = .ok (results, report) ∨ metaRun output = .ok (results, report)) :
    (report.pass = true ↔ report.score = .fin 1) ∧
    (decodeOutput output ≠ none → (report.pass = true ↔ results = [])) := by
  cases hd : decodeOutput output with
  | none =>
    have hr : report = notJsonReport := by
      rcases h with h | h
      · simp only [chunkRun, hd, Except.ok.injEq, Prod.mk.injEq] at h
        exact h.2.symm
      · simp only [metaRun, hd, Except.ok.injEq, Prod.mk.injEq] at h
        exact h.2.symm
    subst hr
    refine ⟨?_, fun hne => absurd rfl hne⟩
    simp [notJsonReport]
  | some parsed =>
    rcases h with h | h
    · rw [chunkRun_decoded output parsed hd] at h
      cases hc : chunkChecks parsed with
      | error e => rw [hc] at h; cases h
      | ok rs =>
        rw [hc] at h
        cases h
        rw [chunkReport_pass, chunkReport_score_one]
        simp
    · rw [metaRun_decoded output parsed hd] at h
      cases hc : metaChecks parsed with
      | error e => rw [hc] at h; cases h
      | ok rs =>
        rw [hc] at h
        cases h
        rw [metaReport_pass, metaReport_score_one]
        simp

/-- Witness of C4 amended at the passing scenario of the specification. -/
theorem pass_iff_score_one_witness :
    chunkRun chunkSample = .ok ([], chunkPassReport) ∧
    ((chunkPassReport.pass = true ↔ chunkPassReport.score = .fin 1) ∧
      (decodeOutput chunkSample ≠ none →
        (chunkPassReport.pass = true ↔ ([] : List JSString) = []))) :=
  ⟨by decide!, pass_iff_score_one chunkSample [] chunkPassReport (Or.inl (by decide!))⟩

/-- C5: a decoded candidate gets `pass = true` with score 1 from chunk-analysis exactly when it
fits the chunk profile (`ChunkValid`): keyPoints an array with 1 to 8 non-blank strings
(other elements are not counted), quotes an array of at most 5 elements each with integer
startIndex ≤ endIndex, non-blank context and significance high, medium or low, stanceSignals
an array whose elements have non-blank topic and position and strength strong, moderate or
weak, topics a non-empty array of non-blank strings, tone a non-blank string.  The scenario
of the specification (one key point) and a candidate with exactly eight valid key points
pass with score 1. -/
theorem chunk_pass_iff_valid (output parsed : JSValue)
    (h : decodeOutput output = some parsed) :
    ((∃ r, chunkAnalysis output = .ok r ∧ r.pass = true ∧ r.score = .fin 1) ↔
      ChunkValid parsed) ∧
    chunkAnalysis chunkSample
      = .ok ⟨true, .fin 1, utf16 "All chunk analysis quality checks passed"⟩ ∧
    chunkAnalysis chunkSampleEight
      = .ok ⟨true, .fin 1, utf16 "All chunk analysis quality checks passed"⟩ := by
  refine ⟨?_, by decide!, by decide!⟩
  rw [chunk_pass_iff output parsed h, chunkChecks_nil]

/-- Witness of C5: the scenario of the specification decodes to itself, passes, and therefore
fits the chunk profile. -/
theorem chunk_pass_iff_valid_witness :
    decodeOutput chunkSample = some chunkSample ∧ ChunkValid chunkSample :=
  ⟨rfl, (chunk_pass_iff_valid chunkSample chunkSample rfl).1.mp
    ⟨⟨true, .fin 1, utf16 "All chunk analysis quality checks passed"⟩, by decide!, rfl, rfl⟩⟩

/-- C6: a decoded candidate gets `pass = true` with score 1 from meta-analysis exactly when it
fits the meta profile (`MetaValid`): politicalStance one of the five literals,
paragraphSummary a string of trimmed length at least 50 with a piece (split on runs of
`.`, `!`, `?`) of trimmed length over 10, summary of trimmed length at least 20,
bulletPointsSummary an array with 3 to 7 non-blank strings, analysisConfidence high, medium
or low, stanceExplanation of trimmed length at least 30, topQuotes an array whose elements
have a text of trimmed length at least 5 and a non-blank context, topics an array with 2 to 7
non-blank strings. -/
theorem meta_pass_iff_valid (output parsed : JSValue)
    (h : decodeOutput output = some parsed) :
    (∃ r, metaAnalysis output = .ok r ∧ r.pass = true ∧ r.score = .fin 1) ↔
      MetaValid parsed := by
  rw [meta_pass_iff output parsed h, metaChecks_nil]

/-- Witness of C6: the sample meta candidate decodes to itself, passes, and therefore fits the
meta profile. -/
theorem meta_pass_iff_valid_witness :
    decodeOutput metaSample = some metaSample ∧ MetaValid metaSample :=
  ⟨rfl, (meta_pass_iff_valid metaSample metaSample rfl).mp
    ⟨⟨true, .fin 1, utf16 "All meta-analysis quality checks passed"⟩, by decide!, rfl, rfl⟩⟩

/-- C7 as stated fails: two candidates that fit the scenario (Centrist, a paragraphSummary
of 60 characters, a summary of 25, four bullet points, medium, a stanceExplanation of 40
characters, no top quote, three topics) do not pass: one whose texts are blank and whose
items are blank or not strings, one whose paragraphSummary is six sentences of nine
letters. -/
theorem meta_scenario_can_fail :
    metaAnalysis metaSampleBlank = .ok ⟨false, .fin (1 / 4),
      utf16 "Failed checks: paragraphSummary has 0 sentences (expected at least 1); paragraphSummary is too short (less than 50 chars); summary is too short (less than 20 chars); bulletPointsSummary has 0 items (expected at least 3); stanceExplanation is too short (less than 30 chars); topics has 0 items (expected at least 2)"⟩ ∧
    metaAnalysis metaSampleShortSentences = .ok ⟨false, .fin (7 / 8),
      utf16 "Failed checks: paragraphSummary has 0 sentences (expected at least 1)"⟩ := by
  decide!

/-- C7 amended: a candidate with politicalStance Centrist, a paragraphSummary of trimmed
length 60 that has a piece of trimmed length over 10, a summary of trimmed length 25, a
bulletPointsSummary of 4 non-blank strings, analysisConfidence medium, a stanceExplanation of
trimmed length 40, topQuotes the empty array and topics of 3 non-blank strings gets
`pass = true` and score 1 from meta-analysis. -/
theorem meta_scenario_passes (c : JSValue) (para summary explanation : JSString)
    (bullets topics : List JSValue)
    (h1 : field c (utf16 "politicalStance") = .str (utf16 "Centrist"))
    (h2 : field c (utf16 "paragraphSummary") = .str para) (h2a : (trim para).length = 60)
    (h2b : ∃ piece ∈ splitSentences para, 10 < (trim piece).length)
    (h3 : field c (utf16 "summary") = .str summary) (h3a : (trim summary).length = 25)
    (h4 : field c (utf16 "bulletPointsSummary") = .arr bullets) (h4a : bullets.length = 4)
    (h4b : ∀ b ∈ bullets, nonBlank b = true)
    (h5 : field c (utf16 "analysisConfidence") = .str (utf16 "medium"))
    (h6 : field c (utf16 "stanceExplanation") = .str explanation)
    (h6a : (trim explanation).length = 40)
    (h7 : field c (utf16 "topQuotes") = .arr [])
    (h8 : field c (utf16 "topics") = .arr topics) (h8a : topics.length = 3)
    (h8b : ∀ t ∈ topics, nonBlank t = true) :
    metaAnalysis c = .ok ⟨true, .fin 1, utf16 "All meta-analysis quality checks passed"⟩ := by
  have hd : decodeOutput c = some c := by
    cases c <;> first | rfl | simp [field] at h1
  have hb : bullets.filter nonBlank = bullets := List.filter_eq_self.mpr h4b
  have ht : topics.filter nonBlank = topics := List.filter_eq_self.mpr h8b
  have hv : MetaValid c := by
    refine ⟨Or.inr (Or.inr (Or.inl h1)), ⟨?_, ?_⟩, ?_, ⟨bullets, h4, ?_, ?_⟩,
      Or.inr (Or.inl h5), ?_, ⟨[], h7, by simp⟩, ⟨topics, h8, ?_, ?_⟩⟩
    · rw [h2]
      simp [minTrimmed, h2a]
    · rw [h2]
      exact h2b
    · rw [h3]
      simp [minTrimmed, h3a]
    · rw [hb, h4a]
      norm_num
    · rw [hb, h4a]
      norm_num
    · rw [h6]
      simp [minTrimmed, h6a]
    · rw [ht, h8a]
      norm_num
    · rw [ht, h8a]
      norm_num
  rw [metaAnalysis_decoded c c hd, (metaChecks_nil c).mpr hv]
  exact congrArg Except.ok metaReport_nil

/-- Witness of C7 amended at the sample meta candidate. -/
theorem meta_scenario_passes_witness :
    metaAnalysis metaSample
      = .ok ⟨true, .fin 1, utf16 "All meta-analysis quality checks passed"⟩ :=
  meta_scenario_passes metaSample
    (utf16 "The hosts compare both budget plans and stay fairly neutral.")
    (utf16 "Two budget plans compared") (utf16 "The hosts give both sides equal airtime.")
    [.str (utf16 "a"), .str (utf16 "b"), .str (utf16 "c"), .str (utf16 "d")]
    [.str (utf16 "tax"), .str (utf16 "debt"), .str (utf16 "jobs")]
    rfl rfl (by decide)
    ⟨utf16 "The hosts compare both budget plans and stay fairly neutral", by decide, by decide⟩
    rfl (by decide) rfl rfl (by decide) rfl rfl (by decide) rfl rfl rfl (by decide)

/-- C8 as stated fails: for a chunk candidate whose only violation is its empty tone, the
reason is `Failed checks: tone is empty or missing`, not the message alone. -/
theorem reason_has_a_heading :
    chunkRun (chunkCandidate (.arr [.str (utf16 "a")]) (.arr []) (.arr [])
        (.arr [.str (utf16 "x")]) (.str []))
      = .ok ([utf16 "tone is empty or missing"],
          ⟨false, jsSub (.fin 1) (jsDiv (.fin 1) (.fin 5)),
            utf16 "Failed checks: tone is empty or missing"⟩) ∧
    utf16 "Failed checks: tone is empty or missing"
      ≠ joinWith (utf16 "; ") [utf16 "tone is empty or missing"] := by
  decide!

/-- C8 amended: for a candidate that decodes, whenever the field checks complete the reason
of the returned Report is the fixed success string of the profile when `results` is empty,
and otherwise `Failed checks: ` followed by the messages of `results`, in order, joined with
`; `. -/
theorem reason_format (output parsed : JSValue) (h : decodeOutput output = some parsed) :
    (∀ results, chunkChecks parsed = .ok results →
      ∃ report, chunkAnalysis output = .ok report ∧
        report.reason =
          if results = [] then utf16 "All chunk analysis quality checks passed"
          else utf16 "Failed checks: " ++ joinWith (utf16 "; ") results) ∧
    (∀ results, metaChecks parsed = .ok results →
      ∃ report, metaAnalysis output = .ok report ∧
        report.reason =
          if results = [] then utf16 "All meta-analysis quality checks passed"
          else utf16 "Failed checks: " ++ joinWith (utf16 "; ") results) := by
  constructor
  · intro results hr
    refine ⟨chunkReport results, ?_, ?_⟩
    · rw [chunkAnalysis_decoded output parsed h, hr]
      rfl
    · cases results <;> simp [chunkReport]
  · intro results hr
    refine ⟨metaReport results, ?_, ?_⟩
    · rw [metaAnalysis_decoded output parsed h, hr]
      rfl
    · cases results <;> simp [metaReport]

/-- Witness of C8 amended at the failing scenario of the specification. -/
theorem reason_format_witness :
    decodeOutput chunkSampleFailing = some chunkSampleFailing ∧
    ∀ results, chunkChecks chunkSampleFailing = .ok results →
      ∃ report, chunkAnalysis chunkSampleFailing = .ok report ∧
        report.reason =
          if results = [] then utf16 "All chunk analysis quality checks passed"
          else utf16 "Failed checks: " ++ joinWith (utf16 "; ") results :=
  ⟨rfl, (reason_format chunkSampleFailing chunkSampleFailing rfl).1⟩

/-- C9 (the code at the failing input): the failing scenario of the specification yields its
four violations in declaration order with score `1 - 4 / 5`; the same candidate with the
significance of its quote replaced by an object that has an own property `toString` makes
chunk-analysis throw a TypeError, so no violation list is returned at all. -/
theorem unrenderable_significance_throws :
    chunkRun chunkSampleFailing
      = .ok ([utf16 "keyPoints has 0 non-empty items (expected at least 1)",
            utf16 "quotes[0].startIndex (5) > endIndex (2)",
            utf16 "topics array is empty", utf16 "tone is empty or missing"],
          ⟨false, jsSub (.fin 1) (jsDiv (.fin 4) (.fin 5)),
            utf16 "Failed checks: keyPoints has 0 non-empty items (expected at least 1); quotes[0].startIndex (5) > endIndex (2); topics array is empty; tone is empty or missing"⟩) ∧
    chunkAnalysis chunkSampleUnrenderable = .error .typeError := by
  decide!

/-- C10 (the code at the failing input): the passing scenario of the specification passes, and
appending to its quotes a quote object that has no startIndex and whose significance is an
object with an own property `toString` makes chunk-analysis throw a TypeError instead of
returning a failing Report. -/
theorem appended_bad_quote_throws :
    chunkAnalysis chunkSample
      = .ok ⟨true, .fin 1, utf16 "All chunk analysis quality checks passed"⟩ ∧
    appendQuote chunkSample badQuote
      = chunkCandidate (.arr [.str (utf16 "a")]) (.arr [badQuote]) (.arr [])
          (.arr [.str (utf16 "x")]) (.str (utf16 "neutral")) ∧
    chunkAnalysis (appendQuote chunkSample badQuote) = .error .typeError :=
  ⟨by decide!, rfl, by decide!⟩

/-! ## What the messages of a block look like -/

theorem keeps_bind (P : JSString → Prop) (f g : List JSString → Except JSError (List JSString))
    (hf : Keeps P f) (hg : Keeps P g) : Keeps P (fun r => f r >>= g) := by
  intro r rs h hr
  cases hfr : f r with
  | error e =>
    simp only [hfr, error_bind] at h
    cases h
  | ok r1 =>
    simp only [hfr, ok_bind] at h
    exact hg r1 rs h (hf r r1 hfr hr)

theorem keeps_step (P : JSString → Prop) (c : Bool) (msg : JSString) (h : c = true → P msg) :
    Keeps P (fun r => if c = true then (pure (push r msg) : Except JSError _) else pure r) := by
  intro r rs hrs hr m hm
  cases c with
  | false =>
    simp only [Bool.false_eq_true, if_false, pure, Except.pure, Except.ok.injEq] at hrs
    subst hrs
    exact hr m hm
  | true =>
    simp only [if_true, pure, Except.pure, Except.ok.injEq, push] at hrs
    subst hrs
    rcases List.mem_append.mp hm with h1 | h1
    · exact hr m h1
    · rw [List.mem_singleton.mp h1]
      exact h rfl

theorem keeps_stepM (P : JSString → Prop) (c : Bool) (x : Except JSError JSString)
    (f : JSString → JSString) (h : ∀ s, P (f s)) :
    Keeps P (fun r => if c = true then
      (x >>= fun s => (pure (push r (f s)) : Except JSError (List JSString))) else pure r) := by
  intro r rs hrs hr m hm
  cases c with
  | false =>
    simp only [Bool.false_eq_true, if_false, pure, Except.pure, Except.ok.injEq] at hrs
    subst hrs
    exact hr m hm
  | true =>
    cases x with
    | error e =>
      simp only [if_true, error_bind] at hrs
      cases hrs
    | ok s =>
      simp only [if_true, ok_bind, pure, Except.pure, Except.ok.injEq, push] at hrs
      subst hrs
      rcases List.mem_append.mp hm with h1 | h1
      · exact hr m h1
      · rw [List.mem_singleton.mp h1]
        exact h s

theorem keeps_getProp (P : JSString → Prop) (v : JSValue) (name : JSString)
    (k : JSValue → List JSString → Except JSError (List JSString))
    (h : ∀ w, Keeps P (k w)) : Keeps P (fun r => getProp v name >>= fun w => k w r) := by
  intro r rs hrs hr
  rw [getProp_eq] at hrs
  cases hv : v.isNullish with
  | true =>
    simp only [hv, if_true, error_bind] at hrs
    cases hrs
  | false =>
    simp only [hv, Bool.false_eq_true, if_false, ok_bind] at hrs
    exact h _ r rs hrs hr

theorem quoteStartIndex_keeps (P : JSString → Prop) (i : Nat) (q : JSValue)
    (h : P (utf16 "quotes[" ++ natToString i ++ utf16 "].startIndex is not an integer")) :
    Keeps P (quoteStartIndex i q) :=
  keeps_getProp P q _ _ fun _ => keeps_step P _ _ fun _ => h

theorem quoteEndIndex_keeps (P : JSString → Prop) (i : Nat) (q : JSValue)
    (h : P (utf16 "quotes[" ++ natToString i ++ utf16 "].endIndex is not an integer")) :
    Keeps P (quoteEndIndex i q) :=
  keeps_getProp P q _ _ fun _ => keeps_step P _ _ fun _ => h

theorem quoteContext_keeps (P : JSString → Prop) (i : Nat) (q : JSValue)
    (h : P (utf16 "quotes[" ++ natToString i ++ utf16 "].context is empty or missing")) :
    Keeps P (quoteContext i q) :=
  keeps_getProp P q _ _ fun _ => keeps_step P _ _ fun _ => h

theorem quoteSignificance_keeps (P : JSString → Prop) (i : Nat) (q : JSValue)
    (h : ∀ shown, P (utf16 "quotes[" ++ natToString i
      ++ utf16 "].significance is invalid: " ++ shown)) :
    Keeps P (quoteSignificance i q) :=
  keeps_getProp P q _ _ fun _ => keeps_stepM P _ _ _ h

theorem quoteOrder_keeps (P : JSString → Prop) (i : Nat) (q : JSValue)
    (h : ∀ shownStart shownEnd, P (utf16 "quotes[" ++ natToString i ++ utf16 "].startIndex ("
      ++ shownStart ++ utf16 ") > endIndex (" ++ shownEnd ++ utf16 ")")) :
    Keeps P (quoteOrder i q) := by
  intro r rs hrs hr m hm
  unfold quoteOrder at hrs
  simp only [getProp_eq] at hrs
  cases hq : q.isNullish with
  | true =>
    simp only [hq, if_true, error_bind] at hrs
    cases hrs
  | false =>
    simp only [hq, Bool.false_eq_true, if_false, ok_bind] at hrs
    split_ifs at hrs
    · cases h1 : toStringJS (field q (utf16 "startIndex")) with
      | error e =>
        simp only [h1, error_bind] at hrs
        cases hrs
      | ok s1 =>
        cases h2 : toStringJS (field q (utf16 "endIndex")) with
        | error e =>
          simp only [h1, h2, ok_bind, error_bind] at hrs
          cases hrs
        | ok s2 =>
          simp only [h1, h2, ok_bind, pure, Except.pure, Except.ok.injEq, push] at hrs
          subst hrs
          rcases List.mem_append.mp hm with h3 | h3
          · exact hr m h3
          · rw [List.mem_singleton.mp h3]
            exact h s1 s2
    · simp only [pure, Except.pure, Except.ok.injEq] at hrs
      subst hrs
      exact hr m hm

theorem chunkQuotesLoop_keeps (P : JSString → Prop) (items : List JSValue) (i : Nat)
    (h : ∀ j q, Keeps P (chunkQuote j q)) : Keeps P (chunkQuotesLoop i items) := by
  induction items generalizing i with
  | nil =>
    intro r rs hrs hr
    simp only [chunkQuotesLoop, pure, Except.pure, Except.ok.injEq] at hrs
    subst hrs
    exact hr
  | cons q rest ih =>
    intro r rs hrs
    unfold chunkQuotesLoop at hrs
    exact keeps_bind P _ _ (h i q) (ih (i + 1)) r rs hrs

theorem chunkStanceLoop_keeps (P : JSString → Prop) (items : List JSValue) (i : Nat)
    (h : ∀ j s, Keeps P (chunkStance j s)) : Keeps P (chunkStanceLoop i items) := by
  induction items generalizing i with
  | nil =>
    intro r rs hrs hr
    simp only [chunkStanceLoop, pure, Except.pure, Except.ok.injEq] at hrs
    subst hrs
    exact hr
  | cons s rest ih =>
    intro r rs hrs
    unfold chunkStanceLoop at hrs
    exact keeps_bind P _ _ (h i s) (ih (i + 1)) r rs hrs

theorem metaTopQuotesLoop_keeps (P : JSString → Prop) (items : List JSValue) (i : Nat)
    (h : ∀ j q, Keeps P (metaTopQuote j q)) : Keeps P (metaTopQuotesLoop i items) := by
  induction items generalizing i with
  | nil =>
    intro r rs hrs hr
    simp only [metaTopQuotesLoop, pure, Except.pure, Except.ok.injEq] at hrs
    subst hrs
    exact hr
  | cons q rest ih =>
    intro r rs hrs
    unfold metaTopQuotesLoop at hrs
    exact keeps_bind P _ _ (h i q) (ih (i + 1)) r rs hrs

theorem starts_with_first (a n b : JSString) : a <+: a ++ n ++ b := by
  rw [List.append_assoc]
  exact List.prefix_append _ _

theorem chunkQuote_keeps (P : JSString → Prop) (h : ∀ m, utf16 "quotes[" <+: m → P m)
    (j : Nat) (q : JSValue) : Keeps P (chunkQuote j q) := by
  unfold chunkQuote
  refine keeps_bind _ _ _ (quoteStartIndex_keeps _ j q (h _ (starts_with_first _ _ _)))
    (keeps_bind _ _ _ (quoteEndIndex_keeps _ j q (h _ (starts_with_first _ _ _)))
      (keeps_bind _ _ _ (quoteOrder_keeps _ j q ?_)
        (keeps_bind _ _ _ (quoteContext_keeps _ j q (h _ (starts_with_first _ _ _)))
          (quoteSignificance_keeps _ j q ?_))))
  · intro s1 s2
    apply h
    simp only [List.append_assoc]
    exact List.prefix_append _ _
  · intro shown
    apply h
    simp only [List.append_assoc]
    exact List.prefix_append _ _

theorem chunkStance_keeps (P : JSString → Prop)
    (h : ∀ m, utf16 "stanceSignals[" <+: m → P m) (j : Nat) (s : JSValue) :
    Keeps P (chunkStance j s) := by
  unfold chunkStance
  refine keeps_bind _ _ _ (keeps_getProp _ s _ _ fun _ => keeps_step _ _ _ fun _ =>
      h _ (starts_with_first _ _ _))
    (keeps_bind _ _ _ (keeps_getProp _ s _ _ fun _ => keeps_step _ _ _ fun _ =>
        h _ (starts_with_first _ _ _))
      (keeps_getProp _ s _ _ fun _ => keeps_stepM _ _ _ _ ?_))
  intro shown
  apply h
  simp only [List.append_assoc]
  exact List.prefix_append _ _

theorem metaTopQuote_keeps (P : JSString → Prop) (h : ∀ m, utf16 "topQuotes[" <+: m → P m)
    (j : Nat) (q : JSValue) : Keeps P (metaTopQuote j q) := by
  unfold metaTopQuote
  exact keeps_bind _ _ _ (keeps_getProp _ q _ _ fun _ => keeps_step _ _ _ fun _ =>
      h _ (starts_with_first _ _ _))
    (keeps_getProp _ q _ _ fun _ => keeps_step _ _ _ fun _ => h _ (starts_with_first _ _ _))

/-! ## A field that is not an array -/

theorem not_nullish_of_field (parsed : JSValue) (name : JSString) (items : List JSValue)
    (h : field parsed name = .arr items) : parsed.isNullish = false := by
  cases hn : parsed.isNullish
  · rfl
  · rw [field_nullish parsed name hn] at h
    cases h

theorem chunkKeyPoints_not_array (parsed : JSValue) (results : List JSString)
    (hn : parsed.isNullish = false)
    (h : (field parsed (utf16 "keyPoints")).isArray = false) :
    chunkKeyPoints parsed results = .ok (results ++ [utf16 "keyPoints is not an array"]) := by
  unfold chunkKeyPoints
  rw [getProp_eq, hn]
  simp only [Bool.false_eq_true, if_false, ok_bind]
  cases hv : field parsed (utf16 "keyPoints") <;>
    simp_all [JSValue.isArray, pure, Except.pure, push]

theorem chunkQuotes_not_array (parsed : JSValue) (results : List JSString)
    (hn : parsed.isNullish = false)
    (h : (field parsed (utf16 "quotes")).isArray = false) :
    chunkQuotes parsed results = .ok (results ++ [utf16 "quotes is not an array"]) := by
  unfold chunkQuotes
  rw [getProp_eq, hn]
  simp only [Bool.false_eq_true, if_false, ok_bind]
  cases hv : field parsed (utf16 "quotes") <;>
    simp_all [JSValue.isArray, pure, Except.pure, push]

theorem chunkStanceSignals_not_array (parsed : JSValue) (results : List JSString)
    (hn : parsed.isNullish = false)
    (h : (field parsed (utf16 "stanceSignals")).isArray = false) :
    chunkStanceSignals parsed results
      = .ok (results ++ [utf16 "stanceSignals is not an array"]) := by
  unfold chunkStanceSignals
  rw [getProp_eq, hn]
  simp only [Bool.false_eq_true, if_false, ok_bind]
  cases hv : field parsed (utf16 "stanceSignals") <;>
    simp_all [JSValue.isArray, pure, Except.pure, push]

theorem chunkTopics_not_array (parsed : JSValue) (results : List JSString)
    (hn : parsed.isNullish = false)
    (h : (field parsed (utf16 "topics")).isArray = false) :
    chunkTopics parsed results = .ok (results ++ [utf16 "topics is not an array"]) := by
  unfold chunkTopics
  rw [getProp_eq, hn]
  simp only [Bool.false_eq_true, if_false, ok_bind]
  cases hv : field parsed (utf16 "topics") <;>
    simp_all [JSValue.isArray, pure, Except.pure, push]

theorem metaBulletPoints_not_array (parsed : JSValue) (results : List JSString)
    (hn : parsed.isNullish = false)
    (h : (field parsed (utf16 "bulletPointsSummary")).isArray = false) :
    metaBulletPoints parsed results
      = .ok (results ++ [utf16 "bulletPointsSummary is not an array"]) := by
  unfold metaBulletPoints
  rw [getProp_eq, hn]
  simp only [Bool.false_eq_true, if_false, ok_bind]
  cases hv : field parsed (utf16 "bulletPointsSummary") <;>
    simp_all [JSValue.isArray, pure, Except.pure, push]

theorem metaTopQuotes_not_array (parsed : JSValue) (results : List JSString)
    (hn : parsed.isNullish = false)
    (h : (field parsed (utf16 "topQuotes")).isArray = false) :
    metaTopQuotes parsed results = .ok (results ++ [utf16 "topQuotes is not an array"]) := by
  unfold metaTopQuotes
  rw [getProp_eq, hn]
  simp only [Bool.false_eq_true, if_false, ok_bind]
  cases hv : field parsed (utf16 "topQuotes") <;>
    simp_all [JSValue.isArray, pure, Except.pure, push]

theorem metaTopics_not_array (parsed : JSValue) (results : List JSString)
    (hn : parsed.isNullish = false)
    (h : (field parsed (utf16 "topics")).isArray = false) :
    metaTopics parsed results = .ok (results ++ [utf16 "topics is not an array"]) := by
  unfold metaTopics
  rw [getProp_eq, hn]
  simp only [Bool.false_eq_true, if_false, ok_bind]
  cases hv : field parsed (utf16 "topics") <;>
    simp_all [JSValue.isArray, pure, Except.pure, push]

theorem not_mem_of_headed (p msg : JSString) (rs : List JSString)
    (h : ∀ m ∈ rs, p <+: m) (hp : ¬ p <+: msg) : msg ∉ rs :=
  fun hm => hp (h msg hm)

theorem chunkKeyPoints_array (parsed : JSValue) (items : List JSValue) (rs : List JSString)
    (h : field parsed (utf16 "keyPoints") = .arr items)
    (hr : chunkKeyPoints parsed [] = .ok rs) : ∀ m ∈ rs, utf16 "keyPoints has " <+: m := by
  unfold chunkKeyPoints at hr
  rw [getProp_eq, not_nullish_of_field parsed _ items h] at hr
  simp only [Bool.false_eq_true, if_false, ok_bind, h, pure, Except.pure, Except.ok.injEq,
    push] at hr
  subst hr
  intro m hm
  split_ifs at hm <;> simp at hm
  all_goals rcases hm with rfl | rfl
  all_goals exact starts_with_first _ _ _

theorem quotesCount_keeps (P : JSString → Prop) (items : List JSValue)
    (h : P (utf16 "quotes has " ++ natToString items.length
      ++ utf16 " items (expected at most 5)")) : Keeps P (quotesCount items) := by
  intro r rs hrs hr m hm
  unfold quotesCount at hrs
  split_ifs at hrs <;> simp only [pure, Except.pure, Except.ok.injEq, push] at hrs <;>
    subst hrs
  · rcases List.mem_append.mp hm with h1 | h1
    · exact hr m h1
    · rw [List.mem_singleton.mp h1]
      exact h
  · exact hr m hm

theorem chunkQuotes_array (parsed : JSValue) (items : List JSValue) (rs : List JSString)
    (h : field parsed (utf16 "quotes") = .arr items)
    (hr : chunkQuotes parsed [] = .ok rs) :
    ∀ m ∈ rs, utf16 "quotes[" <+: m ∨ utf16 "quotes has " <+: m := by
  unfold chunkQuotes at hr
  rw [getProp_eq, not_nullish_of_field parsed _ items h] at hr
  simp only [Bool.false_eq_true, if_false, ok_bind, h] at hr
  exact keeps_bind _ _ _ (quotesCount_keeps _ items (Or.inr (starts_with_first _ _ _)))
    (chunkQuotesLoop_keeps _ items 0 (chunkQuote_keeps _ fun _ hm => Or.inl hm)) [] rs hr
    (fun _ hm => absurd hm (List.not_mem_nil _))

theorem chunkStanceSignals_array (parsed : JSValue) (items : List JSValue)
    (rs : List JSString) (h : field parsed (utf16 "stanceSignals") = .arr items)
    (hr : chunkStanceSignals parsed [] = .ok rs) :
    ∀ m ∈ rs, utf16 "stanceSignals[" <+: m := by
  unfold chunkStanceSignals at hr
  rw [getProp_eq, not_nullish_of_field parsed _ items h] at hr
  simp only [Bool.false_eq_true, if_false, ok_bind, h] at hr
  exact chunkStanceLoop_keeps _ items 0 (chunkStance_keeps _ fun _ hm => hm) [] rs hr
    (fun _ hm => absurd hm (List.not_mem_nil _))

theorem chunkTopics_array (parsed : JSValue) (items : List JSValue) (rs : List JSString)
    (h : field parsed (utf16 "topics") = .arr items)
    (hr : chunkTopics parsed [] = .ok rs) :
    ∀ m ∈ rs, utf16 "topics array" <+: m ∨ utf16 "topics has " <+: m := by
  unfold chunkTopics at hr
  rw [getProp_eq, not_nullish_of_field parsed _ items h] at hr
  simp only [Bool.false_eq_true, if_false, ok_bind, h] at hr
  intro m hm
  split_ifs at hr <;> simp only [pure, Except.pure, Except.ok.injEq, push, List.nil_append]
    at hr <;> subst hr <;> simp only [List.mem_singleton, List.not_mem_nil] at hm
  · subst hm
    exact Or.inl (by decide)
  · subst hm
    exact Or.inr (starts_with_first _ _ _)

theorem metaBulletPoints_array (parsed : JSValue) (items : List JSValue) (rs : List JSString)
    (h : field parsed (utf16 "bulletPointsSummary") = .arr items)
    (hr : metaBulletPoints parsed [] = .ok rs) :
    ∀ m ∈ rs, utf16 "bulletPointsSummary has " <+: m := by
  unfold metaBulletPoints at hr
  rw [getProp_eq, not_nullish_of_field parsed _ items h] at hr
  simp only [Bool.false_eq_true, if_false, ok_bind, h, pure, Except.pure, Except.ok.injEq,
    push] at hr
  subst hr
  intro m hm
  split_ifs at hm <;> simp at hm
  all_goals rcases hm with rfl | rfl
  all_goals exact starts_with_first _ _ _

theorem metaTopQuotes_array (parsed : JSValue) (items : List JSValue) (rs : List JSString)
    (h : field parsed (utf16 "topQuotes") = .arr items)
    (hr : metaTopQuotes parsed [] = .ok rs) : ∀ m ∈ rs, utf16 "topQuotes[" <+: m := by
  unfold metaTopQuotes at hr
  rw [getProp_eq, not_nullish_of_field parsed _ items h] at hr
  simp only [Bool.false_eq_true, if_false, ok_bind, h] at hr
  exact metaTopQuotesLoop_keeps _ items 0 (metaTopQuote_keeps _ fun _ hm => hm) [] rs hr
    (fun _ hm => absurd hm (List.not_mem_nil _))

theorem metaTopics_array (parsed : JSValue) (items : List JSValue) (rs : List JSString)
    (h : field parsed (utf16 "topics") = .arr items)
    (hr : metaTopics parsed [] = .ok rs) : ∀ m ∈ rs, utf16 "topics has " <+: m := by
  unfold metaTopics at hr
  rw [getProp_eq, not_nullish_of_field parsed _ items h] at hr
  simp only [Bool.false_eq_true, if_false, ok_bind, h, pure, Except.pure, Except.ok.injEq,
    push] at hr
  subst hr
  intro m hm
  split_ifs at hm <;> simp at hm
  all_goals rcases hm with rfl | rfl
  all_goals exact starts_with_first _ _ _

/-! ## The claims about single violations -/

/-- C13: for an object candidate and an array-valued field F of a profile (keyPoints,
quotes, stanceSignals, topics of chunk-analysis; bulletPointsSummary, topQuotes, topics of
meta-analysis), when F is absent or is not an array the block of F pushes exactly one
message, `F is not an array`, and nothing else (no size or nested check runs); and no
message the block produces when F is an array, with zero valid items or not, is that
message.  For the empty array the blocks of keyPoints, topics and bulletPointsSummary
produce their own message, those of quotes, stanceSignals and topQuotes none. -/
theorem not_an_array_violation (name : String)
    (block : JSValue → List JSString → Except JSError (List JSString))
    (hb : (name, block) ∈ arrayBlocks) (props : List (JSString × JSValue)) :
    (∀ results, (field (.obj props) (utf16 name)).isArray = false →
      block (.obj props) results = .ok (results ++ [utf16 (name ++ " is not an array")])) ∧
    (∀ items rs, field (.obj props) (utf16 name) = .arr items →
      block (.obj props) [] = .ok rs → utf16 (name ++ " is not an array") ∉ rs) ∧
    (chunkKeyPoints (.obj [(utf16 "keyPoints", .arr [])]) []
        = .ok [utf16 "keyPoints has 0 non-empty items (expected at least 1)"] ∧
      chunkQuotes (.obj [(utf16 "quotes", .arr [])]) [] = .ok [] ∧
      chunkStanceSignals (.obj [(utf16 "stanceSignals", .arr [])]) [] = .ok [] ∧
      chunkTopics (.obj [(utf16 "topics", .arr [])]) [] = .ok [utf16 "topics array is empty"] ∧
      metaBulletPoints (.obj [(utf16 "bulletPointsSummary", .arr [])]) []
        = .ok [utf16 "bulletPointsSummary has 0 items (expected at least 3)"] ∧
      metaTopQuotes (.obj [(utf16 "topQuotes", .arr [])]) [] = .ok [] ∧
      metaTopics (.obj [(utf16 "topics", .arr [])]) []
        = .ok [utf16 "topics has 0 items (expected at least 2)"]) := by
  refine ⟨?_, ?_, by decide⟩
  · intro results h
    simp only [arrayBlocks, List.mem_cons, Prod.mk.injEq, List.mem_singleton,
      List.not_mem_nil, or_false] at hb
    rcases hb with ⟨rfl, rfl⟩ | ⟨rfl, rfl⟩ | ⟨rfl, rfl⟩ | ⟨rfl, rfl⟩ | ⟨rfl, rfl⟩ |
      ⟨rfl, rfl⟩ | ⟨rfl, rfl⟩
    · exact chunkKeyPoints_not_array _ results rfl h
    · exact chunkQuotes_not_array _ results rfl h
    · exact chunkStanceSignals_not_array _ results rfl h
    · exact chunkTopics_not_array _ results rfl h
    · exact metaBulletPoints_not_array _ results rfl h
    · exact metaTopQuotes_not_array _ results rfl h
    · exact metaTopics_not_array _ results rfl h
  · intro items rs h hr
    simp only [arrayBlocks, List.mem_cons, Prod.mk.injEq, List.mem_singleton,
      List.not_mem_nil, or_false] at hb
    rcases hb with ⟨rfl, rfl⟩ | ⟨rfl, rfl⟩ | ⟨rfl, rfl⟩ | ⟨rfl, rfl⟩ | ⟨rfl, rfl⟩ |
      ⟨rfl, rfl⟩ | ⟨rfl, rfl⟩
    · exact not_mem_of_headed _ _ rs (chunkKeyPoints_array _ items rs h hr) (by decide)
    · intro hm
      rcases chunkQuotes_array _ items rs h hr _ hm with h1 | h1
      · exact absurd h1 (by decide)
      · exact absurd h1 (by decide)
    · exact not_mem_of_headed _ _ rs (chunkStanceSignals_array _ items rs h hr) (by decide)
    · intro hm
      rcases chunkTopics_array _ items rs h hr _ hm with h1 | h1
      · exact absurd h1 (by decide)
      · exact absurd h1 (by decide)
    · exact not_mem_of_headed _ _ rs (metaBulletPoints_array _ items rs h hr) (by decide)
    · exact not_mem_of_headed _ _ rs (metaTopQuotes_array _ items rs h hr) (by decide)
    · exact not_mem_of_headed _ _ rs (metaTopics_array _ items rs h hr) (by decide)

/-- Witness of C13 at the field quotes of the empty object. -/
theorem not_an_array_violation_witness :
    ("quotes", chunkQuotes) ∈ arrayBlocks ∧
    chunkQuotes (.obj []) [] = .ok ([] ++ [utf16 ("quotes" ++ " is not an array")]) :=
  ⟨by simp [arrayBlocks],
    (not_an_array_violation "quotes" chunkQuotes (by simp [arrayBlocks]) []).1 [] rfl⟩

theorem chunkQuote_parts (i : Nat) (q : JSValue) (rs : List JSString)
    (h : chunkQuote i q [] = .ok rs) :
    ∃ a b c d e, quoteStartIndex i q [] = .ok a ∧ quoteEndIndex i q [] = .ok b ∧
      quoteOrder i q [] = .ok c ∧ quoteContext i q [] = .ok d ∧
      quoteSignificance i q [] = .ok e ∧ rs = a ++ (b ++ (c ++ (d ++ e))) := by
  rw [chunkQuote_concat] at h
  cases ha : quoteStartIndex i q [] with
  | error x => simp only [ha, error_bind] at h; cases h
  | ok a =>
  cases hb : quoteEndIndex i q [] with
  | error x => simp only [ha, hb, ok_bind, error_bind] at h; cases h
  | ok b =>
  cases hc : quoteOrder i q [] with
  | error x => simp only [ha, hb, hc, ok_bind, error_bind] at h; cases h
  | ok c =>
  cases hd : quoteContext i q [] with
  | error x => simp only [ha, hb, hc, hd, ok_bind, error_bind] at h; cases h
  | ok d =>
  cases he : quoteSignificance i q [] with
  | error x => simp only [ha, hb, hc, hd, he, ok_bind, error_bind] at h; cases h
  | ok e =>
    simp only [ha, hb, hc, hd, he, ok_bind, pure, Except.pure, Except.ok.injEq] at h
    exact ⟨a, b, c, d, e, rfl, rfl, rfl, rfl, rfl, h.symm⟩

theorem quoteOrder_produced (i : Nat) (q : JSValue) (hq : q.isNullish = false)
    (s e : JSNumber) (hs : field q (utf16 "startIndex") = .num s)
    (he : field q (utf16 "endIndex") = .num e) (hgt : s.gt e = true)
    (results : List JSString) :
    quoteOrder i q results = .ok (results ++ [orderViolation i s e]) := by
  unfold quoteOrder
  simp [getProp_eq, hq, hs, he, JSValue.isNumber, jsGreater, hgt, toStringJS, ok_bind, pure,
    Except.pure, push, orderViolation]

theorem quoteOrder_silent (i : Nat) (q : JSValue) (hq : q.isNullish = false)
    (h : ¬ ∃ s e, field q (utf16 "startIndex") = .num s ∧
      field q (utf16 "endIndex") = .num e ∧ s.gt e = true)
    (results : List JSString) : quoteOrder i q results = .ok results := by
  unfold quoteOrder
  simp only [getProp_eq, hq, Bool.false_eq_true, if_false, ok_bind]
  have hc : (JSValue.isNumber (field q (utf16 "startIndex")) &&
      JSValue.isNumber (field q (utf16 "endIndex")) &&
      jsGreater (field q (utf16 "startIndex")) (field q (utf16 "endIndex"))) = false := by
    cases hs : field q (utf16 "startIndex") with
    | num s =>
      cases he : field q (utf16 "endIndex") with
      | num e =>
        cases hg : s.gt e with
        | false => simp [JSValue.isNumber, jsGreater, hg]
        | true => exact absurd ⟨s, e, hs, he, hg⟩ h
      | _ => simp [JSValue.isNumber]
    | _ => simp [JSValue.isNumber]
  rw [hc]
  rfl

theorem head_not_in_startIndex (i : Nat) :
    ¬ orderViolationHead i <+:
      utf16 "quotes[" ++ natToString i ++ utf16 "].startIndex is not an integer" := by
  unfold orderViolationHead
  simp only [List.append_assoc, List.prefix_append_right_inj]
  decide

theorem head_not_in_endIndex (i : Nat) :
    ¬ orderViolationHead i <+:
      utf16 "quotes[" ++ natToString i ++ utf16 "].endIndex is not an integer" := by
  unfold orderViolationHead
  simp only [List.append_assoc, List.prefix_append_right_inj]
  decide

theorem head_not_in_context (i : Nat) :
    ¬ orderViolationHead i <+:
      utf16 "quotes[" ++ natToString i ++ utf16 "].context is empty or missing" := by
  unfold orderViolationHead
  simp only [List.append_assoc, List.prefix_append_right_inj]
  decide

theorem head_not_in_significance (i : Nat) (shown : JSString) :
    ¬ orderViolationHead i <+:
      utf16 "quotes[" ++ natToString i ++ utf16 "].significance is invalid: " ++ shown := by
  unfold orderViolationHead
  simp only [List.append_assoc, List.prefix_append_right_inj]
  intro hp
  have h2 := List.prefix_of_prefix_length_le hp
    (List.prefix_append (utf16 "].significance is invalid: ") shown) (by decide)
  revert h2
  decide

theorem head_in_orderViolation (i : Nat) (s e : JSNumber) :
    orderViolationHead i <+: orderViolation i s e := by
  unfold orderViolationHead orderViolation
  simp only [List.append_assoc, List.prefix_append_right_inj]
  exact List.prefix_append _ _

/-- C12 as stated fails: a quote whose startIndex is 5.5 (a number, not an integer) and whose
endIndex is 2 gets the ordered-pair violation `quotes[0].startIndex (5.5) > endIndex (2)`,
next to `quotes[0].startIndex is not an integer`. -/
theorem fractional_start_gets_order_violation :
    (JSValue.num (.fin (11 / 2))).isInteger = false ∧
    chunkRun chunkSampleFractional
      = .ok ([utf16 "quotes[0].startIndex is not an integer",
            utf16 "quotes[0].startIndex (5.5) > endIndex (2)"],
          ⟨false, jsSub (.fin 1) (jsDiv (.fin 2) (.fin 5)),
            utf16 "Failed checks: quotes[0].startIndex is not an integer; quotes[0].startIndex (5.5) > endIndex (2)"⟩) := by
  decide!

/-- C12 amended: for a quote object q at index i, the statement of lines 47-49 pushes the
ordered-pair violation `quotes[i].startIndex (s) > endIndex (e)` when startIndex and endIndex
are both numbers (integers or not) with startIndex > endIndex, and pushes nothing otherwise;
and whenever the loop body returns the messages of q, one of them is an ordered-pair
violation if and only if startIndex and endIndex are both numbers with
startIndex > endIndex. -/
theorem order_violation_iff (i : Nat) (q : JSValue) (hq : q.isNullish = false) :
    (∀ s e, field q (utf16 "startIndex") = .num s → field q (utf16 "endIndex") = .num e →
      s.gt e = true →
      ∀ results, quoteOrder i q results = .ok (results ++ [orderViolation i s e])) ∧
    ((¬ ∃ s e, field q (utf16 "startIndex") = .num s ∧
        field q (utf16 "endIndex") = .num e ∧ s.gt e = true) →
      ∀ results, quoteOrder i q results = .ok results) ∧
    (∀ rs, chunkQuote i q [] = .ok rs →
      ((∃ m ∈ rs, orderViolationHead i <+: m) ↔
        ∃ s e, field q (utf16 "startIndex") = .num s ∧
          field q (utf16 "endIndex") = .num e ∧ s.gt e = true)) ∧
    (∀ rs s e, chunkQuote i q [] = .ok rs → field q (utf16 "startIndex") = .num s →
      field q (utf16 "endIndex") = .num e → s.gt e = true → orderViolation i s e ∈ rs) := by
  have hnil : ∀ m ∈ ([] : List JSString), ¬ orderViolationHead i <+: m :=
    fun _ hm => absurd hm (List.not_mem_nil _)
  refine ⟨fun s e hs he hgt results => quoteOrder_produced i q hq s e hs he hgt results,
    fun h results => quoteOrder_silent i q hq h results, ?_, ?_⟩
  · intro rs hrs
    obtain ⟨a, b, c, d, e, ha, hb, hc, hd, he, rfl⟩ := chunkQuote_parts i q rs hrs
    have na := quoteStartIndex_keeps _ i q (head_not_in_startIndex i) [] a ha hnil
    have nb := quoteEndIndex_keeps _ i q (head_not_in_endIndex i) [] b hb hnil
    have nd := quoteContext_keeps _ i q (head_not_in_context i) [] d hd hnil
    have ne := quoteSignificance_keeps _ i q (head_not_in_significance i) [] e he hnil
    constructor
    · rintro ⟨m, hm, hp⟩
      by_contra hno
      rw [quoteOrder_silent i q hq hno []] at hc
      cases hc
      simp only [List.mem_append] at hm
      rcases hm with hm | hm | hm | hm | hm
      · exact na m hm hp
      · exact nb m hm hp
      · exact absurd hm (List.not_mem_nil _)
      · exact nd m hm hp
      · exact ne m hm hp
    · rintro ⟨s, t, hs, ht, hgt⟩
      rw [quoteOrder_produced i q hq s t hs ht hgt []] at hc
      cases hc
      exact ⟨orderViolation i s t, by simp, head_in_orderViolation i s t⟩
  · intro rs s t hrs hs ht hgt
    obtain ⟨a, b, c, d, e, ha, hb, hc, hd, he, rfl⟩ := chunkQuote_parts i q rs hrs
    rw [quoteOrder_produced i q hq s t hs ht hgt []] at hc
    cases hc
    simp

/-- Witness of C12 amended at the quote of the failing scenario of the specification. -/
theorem order_violation_iff_witness :
    quoteOrder 0 (quoteObject (.num (.fin 5)) (.num (.fin 2)) (.str (utf16 "c"))
        (.str (utf16 "high"))) []
      = .ok ([] ++ [orderViolation 0 (.fin 5) (.fin 2)]) :=
  (order_violation_iff 0 (quoteObject (.num (.fin 5)) (.num (.fin 2)) (.str (utf16 "c"))
    (.str (utf16 "high"))) rfl).1 (.fin 5) (.fin 2) rfl rfl (by decide) []

theorem joinWith_cons (sep x : JSString) (xs : List JSString) :
    ∃ t, joinWith sep (x :: xs) = x ++ t := by
  cases xs with
  | nil => exact ⟨[], by simp [joinWith]⟩
  | cons y rest => exact ⟨sep ++ joinWith sep (y :: rest), by simp [joinWith]⟩

theorem scoreOf_eight_one : scoreOf 8 1 = .fin (7 / 8) := by
  decide!

/-- Whenever meta-analysis returns a Report for a decoded candidate whose politicalStance is
not one of the five literals, that Report has `pass = false`, a score of at most 7/8, and a
reason that contains the message quoting the rendered value. -/
theorem invalid_stance_report (output parsed : JSValue) (shown : JSString) (report : Report)
    (hd : decodeOutput output = some parsed)
    (hv : includesValue VALID_STANCES (field parsed (utf16 "politicalStance")) = false)
    (hs : toStringJS (field parsed (utf16 "politicalStance")) = .ok shown)
    (hr : metaAnalysis output = .ok report) :
    report.pass = false ∧ report.score.gt (.fin (7 / 8)) = false ∧
    (utf16 "politicalStance \"" ++ shown ++ utf16 "\" is not a valid enum value")
      <:+: report.reason := by
  have t7 := metaTopics_append parsed
  have t6 := bind_append _ _ (metaTopQuotes_append parsed) t7
  have t5 := bind_append _ _ (metaStanceExplanation_append parsed) t6
  have t4 := bind_append _ _ (metaConfidence_append parsed) t5
  have t3 := bind_append _ _ (metaBulletPoints_append parsed) t4
  have t2 := bind_append _ _ (metaSummary_append parsed) t3
  have t1 := bind_append _ _ (metaParagraphSummary_append parsed) t2
  rw [metaAnalysis_decoded output parsed hd] at hr
  cases hk : metaChecks parsed with
  | error e => rw [hk] at hr; cases hr
  | ok rs =>
    rw [hk] at hr
    cases hr
    have hn : parsed.isNullish = false := by
      cases hnl : parsed.isNullish
      · rfl
      · rw [field_nullish parsed _ hnl] at hv
        unfold metaChecks at hk
        simp only [metaPoliticalStance, getProp_eq, hnl, if_true, error_bind] at hk
        cases hk
    have hp : metaPoliticalStance parsed []
        = .ok [utf16 "politicalStance \"" ++ shown ++ utf16 "\" is not a valid enum value"] := by
      unfold metaPoliticalStance
      simp [getProp_eq, hn, hv, hs, ok_bind, pure, Except.pure, push]
    unfold metaChecks at hk
    rw [hp] at hk
    simp only [ok_bind] at hk
    rw [t1] at hk
    obtain ⟨rest, hrest⟩ : ∃ rest, rs =
        (utf16 "politicalStance \"" ++ shown ++ utf16 "\" is not a valid enum value")
          :: rest := by
      revert hk
      generalize (metaParagraphSummary parsed [] >>= fun r =>
        metaSummary parsed r >>= fun r => metaBulletPoints parsed r >>= fun r =>
        metaConfidence parsed r >>= fun r => metaStanceExplanation parsed r >>= fun r =>
        metaTopQuotes parsed r >>= fun r => metaTopics parsed r) = tail
      intro hk
      cases tail with
      | error e => cases hk
      | ok b =>
        simp only [Except.map, Except.ok.injEq] at hk
        exact ⟨b, by rw [← hk]; rfl⟩
    subst hrest
    refine ⟨by simp [metaReport], ?_, ?_⟩
    · have := scoreOf_eight_mono 1 (rest.length + 1) (by omega)
      rw [scoreOf_eight_one] at this
      simpa [metaReport] using this
    · obtain ⟨t, ht⟩ := joinWith_cons (utf16 "; ")
        (utf16 "politicalStance \"" ++ shown ++ utf16 "\" is not a valid enum value") rest
      refine ⟨utf16 "Failed checks: ", t, ?_⟩
      have hreason : (metaReport
          ((utf16 "politicalStance \"" ++ shown ++ utf16 "\" is not a valid enum value")
            :: rest)).reason
          = utf16 "Failed checks: " ++ joinWith (utf16 "; ")
            ((utf16 "politicalStance \"" ++ shown ++ utf16 "\" is not a valid enum value")
              :: rest) := rfl
      rw [hreason, ht]
      simp only [List.append_assoc]

/-- C11 (the code at the failing input): the sample meta candidate with the politicalStance
`Moderate` gets `pass = false`, the score 7/8 and the reason that quotes the invalid value;
the same candidate with `null` as its only top quote makes meta-analysis throw a TypeError at
`q.text`, so no Report is returned. -/
theorem moderate_with_null_quote_throws :
    metaAnalysis metaSampleModerate = .ok ⟨false, .fin (7 / 8),
      utf16 "Failed checks: politicalStance \"Moderate\" is not a valid enum value"⟩ ∧
    metaAnalysis metaSampleModerateNullQuote = .error .typeError := by
  decide!

end Blindspot
